import Mathlib

/-!
# Verification of the functions-framework-go core

A shallow embedding, in Lean 4, of the event-dispatch core of the
GoogleCloudPlatform/functions-framework-go repository:

* the function registry (`internal/registry/registry.go`),
* the response/error writer and the per-kind invocation adapters
  (`funcframework/framework.go`),
* the event normalizer (`funcframework/events.go` together with
  `internal/events/pubsub/pubsub.go`).

Go maps are embedded as association lists, Go's `json.Unmarshal` into the
specific structs used by the code is embedded as total Lean functions over a
JSON value type, user callbacks (which the Go code invokes through
reflection) are embedded as abstract decode/call records, and the
`http.ResponseWriter` is embedded as an explicit record tracking the status
header, the status code, the number of `WriteHeader` calls and the body,
together with the accumulated error-stream output.
-/

namespace FFGo

/-! ## JSON values

Go's `encoding/json` decodes an `interface{}` into `nil`, `bool`, `float64`,
`string`, `[]interface{}` or `map[string]interface{}`.  Numbers are kept as
their literal text here (the framework never does arithmetic on decoded
numbers).  The extra constructors `bytes` and `strmap` embed the Go values
`[]byte` (as produced by base64-decoding a JSON string into a `[]byte`
field) and `map[string]string` (the Pub/Sub attributes map), which occur
inside the synthesized background-event data payload. -/
inductive Jx where
  | null : Jx
  | bool (b : Bool) : Jx
  | num (lit : String) : Jx
  | str (s : String) : Jx
  | arr (elems : List Jx) : Jx
  | obj (fields : List (String × Jx)) : Jx
  | bytes (bs : List Nat) : Jx
  | strmap (m : List (String × String)) : Jx

namespace Jx

/-- Look up a key in a JSON object, first occurrence. -/
def lookupField : List (String × Jx) → String → Option Jx
  | [], _ => none
  | (k, v) :: rest, key => if k = key then some v else lookupField rest key

end Jx

/-! ## Function registry (`internal/registry/registry.go`)

The registry stores `*RegisteredFunction` values.  The user callbacks held
in the four callback fields are opaque Go function values; they are embedded
as opaque numeric identifiers, `none` meaning the nil Go function. -/

structure RegisteredFunction where
  Name : String
  Path : String
  CloudEventFn : Option Nat
  HTTPFn : Option Nat
  EventFn : Option Nat
  TypedFn : Option Nat
  deriving DecidableEq, Repr

/-- A zero-valued `RegisteredFunction`, as produced by a Go composite
literal that sets only one callback field. -/
def emptyRegisteredFunction : RegisteredFunction :=
  { Name := "", Path := "", CloudEventFn := none, HTTPFn := none,
    EventFn := none, TypedFn := none }

/-- A functional registration option (`registry.Option`): `WithPath` and
`WithName` each set one field of the function being built. -/
inductive RegOption where
  | withPath (path : String)
  | withName (name : String)
  deriving DecidableEq, Repr

def applyRegOption (fn : RegisteredFunction) : RegOption → RegisteredFunction
  | .withPath p => { fn with Path := p }
  | .withName n => { fn with Name := n }

/-- `registry.Registry`: the Go map `functions` is embedded as an
association list keyed by name (insertion order; keys are unique because
`register` checks for presence before storing), and the unnamed-function
slice as a plain list. -/
structure Registry where
  functions : List (String × RegisteredFunction)
  functionsWithoutNames : List RegisteredFunction
  deriving DecidableEq, Repr

def Registry.new : Registry := { functions := [], functionsWithoutNames := [] }

/-- `Registry.GetRegisteredFunction`. -/
def Registry.getRegisteredFunction (r : Registry) (name : String) :
    Option RegisteredFunction :=
  r.functions.lookup name

/-- `Registry.register`.  The Go method mutates the registry only on the
success paths; the embedding returns the error message (if any) together
with the registry state at exit. -/
def Registry.register (r : Registry) (function : RegisteredFunction)
    (options : List RegOption) : Option String × Registry :=
  let fn := options.foldl applyRegOption function
  if fn.Name = "" ∧ fn.Path = "" then
    (some "either the function path or the function name should be specified", r)
  else if fn.Name = "" then
    (none, { r with functionsWithoutNames := r.functionsWithoutNames ++ [fn] })
  else if (r.functions.lookup fn.Name).isSome then
    (some ("function name already registered: \x22" ++ fn.Name ++ "\x22"), r)
  else
    let fn' := if fn.Path = "" then { fn with Path := "/" ++ fn.Name } else fn
    (none, { r with functions := r.functions ++ [(fn.Name, fn')] })

/-- The four kinds of registration call. -/
inductive FnKind where
  | http | cloudevent | event | typed
  deriving DecidableEq, Repr

/-- The `RegisteredFunction` literal each `Register*` wrapper builds before
calling `register` (exactly one callback field set). -/
def mkKindFunction : FnKind → Nat → RegisteredFunction
  | .http, id => { emptyRegisteredFunction with HTTPFn := some id }
  | .cloudevent, id => { emptyRegisteredFunction with CloudEventFn := some id }
  | .event, id => { emptyRegisteredFunction with EventFn := some id }
  | .typed, id => { emptyRegisteredFunction with TypedFn := some id }

/-- `Registry.RegisterHTTP` / `RegisterCloudEvent` / `RegisterEvent` /
`RegisterTyped`: each wraps the callback in a fresh `RegisteredFunction`
and delegates to `register`. -/
def Registry.registerKind (r : Registry) (kind : FnKind) (fnId : Nat)
    (options : List RegOption) : Option String × Registry :=
  r.register (mkKindFunction kind fnId) options

/-- `Registry.GetLastFunctionWithoutName`. -/
def Registry.getLastFunctionWithoutName (r : Registry) : Option RegisteredFunction :=
  r.functionsWithoutNames.getLast?

end FFGo

namespace FFGo

/-! ## Response/error writer (`funcframework/framework.go`)

`http.ResponseWriter` semantics embedded: headers (including the status
code) can be changed only until they are sent; they are sent by the first
`WriteHeader` call or implicitly by the first body write.  Later
`WriteHeader` calls are "superfluous" no-ops (but are counted here, since
each corresponds to one attempt to write a response), and later body writes
append.  `os.Stderr` output is accumulated in `stderr`.  The `K_SERVICE`
log-flush branches (which only print extra blank lines) are modelled with
`K_SERVICE` unset, and request-scoped logging/deadline setup
(`setupRequestContext`) has no observable effect on the response. -/

def functionStatusHeader : String := "X-Google-Status"

def crashStatus : String := "crash"

def errorStatus : String := "error"

/-- `panicMessageTmpl` instantiated by `fmt.Sprintf` at `panicSrc`. -/
def panicGenericMsg (panicSrc : String) : String :=
  "A panic occurred during " ++ panicSrc ++ ". Please see logs for more details."

structure ResponseWriter where
  statusHeader : Option String
  statusCode : Option Nat
  writeHeaderCalls : Nat
  body : String
  deriving DecidableEq, Repr

structure HTTPState where
  w : ResponseWriter
  stderr : String
  deriving DecidableEq, Repr

def freshHTTPState : HTTPState :=
  { w := { statusHeader := none, statusCode := none, writeHeaderCalls := 0, body := "" },
    stderr := "" }

/-- The status code the client sees: 200 unless an effective `WriteHeader`
happened. -/
def HTTPState.finalStatusCode (st : HTTPState) : Nat :=
  st.w.statusCode.getD 200

/-- Headers have been flushed once `WriteHeader` ran or the body is
non-empty (a body write sends headers implicitly). -/
def ResponseWriter.headersSent (w : ResponseWriter) : Bool :=
  w.writeHeaderCalls > 0 || w.body ≠ ""

/-- `strings.HasSuffix(msg, "\n")`. -/
def hasSuffixNewline (s : String) : Bool :=
  s.data.getLast? = some '\n'

/-- Append the trailing newline when missing. -/
def newlineTerminate (s : String) : String :=
  if hasSuffixNewline s then s else s ++ "\n"

/-- `fmtFunctionError`: `fmt.Sprintf(fnErrorMessageStderrTmpl, err)` plus a
trailing newline when missing. -/
def fmtFunctionError (err : String) : String :=
  newlineTerminate ("Function error: " ++ err)

/-- `fmt.Fprintf(w, s)` with `s` as the format string and no operands.
Exact for format strings containing no `'%'` (every theorem below only
relies on that case); percent directives are processed with Go's
missing-operand rendering, except that format flags and widths are not
consumed separately. -/
def fprintfNoOperands (format : String) : String :=
  let step : (String × Bool) → Char → (String × Bool) :=
    fun (acc, inDirective) c =>
      if inDirective then
        if c = '%' then (acc ++ "%", false)
        else (acc ++ "%!" ++ String.mk [c] ++ "(MISSING)", false)
      else if c = '%' then (acc, true)
      else (acc ++ String.mk [c], false)
  let (acc, inDirective) := format.data.foldl step ("", false)
  if inDirective then acc ++ "%!(NOVERB)" else acc

/-- `writeHTTPErrorResponse`: newline-terminate the message, print it to
stderr, set the status header, write the status code and print the message
to the response body. -/
def writeHTTPErrorResponse (st : HTTPState) (statusCode : Nat)
    (status msg : String) : HTTPState :=
  let msg := newlineTerminate msg
  let st := { st with stderr := st.stderr ++ msg }
  let w := st.w
  let w := if w.headersSent then w else { w with statusHeader := some status }
  let w :=
    if w.headersSent then { w with writeHeaderCalls := w.writeHeaderCalls + 1 }
    else { w with statusCode := some statusCode,
                  writeHeaderCalls := w.writeHeaderCalls + 1 }
  let w := { w with body := w.body ++ msg }
  { st with w := w }

/-- `recoverPanic` with a recovered value `panicVal` (rendered by `%v`) and
the `debug.Stack()` text `stack`: log the generic message, the panic value
(twice, per the format string) and the stack trace to stderr, then write the
generic 500/`crash` response when a writer is present (`withWriter`).  The
`shouldPanic` re-raise is modelled at the call sites via their outcome
types. -/
def recoverPanicState (st : HTTPState) (panicSrc panicVal stack : String)
    (withWriter : Bool) : HTTPState :=
  let genericMsg := panicGenericMsg panicSrc
  let st := { st with stderr := st.stderr ++ genericMsg ++ "\npanic message: " ++
                panicVal ++ "\nstack trace: " ++ panicVal ++ "\n" ++ stack }
  if withWriter then writeHTTPErrorResponse st 500 crashStatus genericMsg else st

/-! ## Requests and user-callback abstractions

The body carries the raw bytes together with the result of JSON syntax
parsing (`none` when `json.Unmarshal` would report a syntax error on it);
`Request.body = none` embeds `r.Body == nil`.  A user callback reached
through reflection is embedded by what the adapter observes of it: how
`json.Unmarshal` decodes raw bytes into its argument type, and what
invoking it on the decoded argument does (panic, or return). -/

structure GoBody where
  raw : String
  parsed : Option Jx

structure Request where
  path : String
  ceIdHeader : String
  contentTypeHeader : String
  ceSpecVersionHeader : String
  ceTypeHeader : String
  ceSourceHeader : String
  body : Option GoBody

/-- `readHTTPRequestBody` (two-result revision, `framework.go`). -/
def readHTTPRequestBody (r : Request) : Except String GoBody :=
  match r.body with
  | none => .error "request body not found"
  | some b => .ok b

inductive EventCallResult where
  | panics (val : String)
  | rets (err : Option String)

/-- An event-kind user function `func(context.Context, T) error` that passed
`validateEventFunction`: `decode` is `json.Unmarshal` of raw bytes into `T`
(error text on failure), `call` invokes it (the `context.Context` argument
carries no response-observable data). -/
structure EventFn (α : Type) where
  decode : String → Except String α
  call : α → EventCallResult

/-- For a non-nil returned interface value: whether its dynamic type is
assignable to `error`, its `%v` rendering, and its `json.Marshal`
encoding. -/
structure GoRetDyn where
  assignableToError : Bool
  errText : String
  jsonEnc : String

/-- The dynamic view of one reflected return value `v`:
`dyn = none` embeds `v.Interface() == nil` (in which case `reflect.TypeOf`
yields a nil `Type` and any method call on it panics). -/
structure GoRetVal where
  dyn : Option GoRetDyn

inductive TypedCallResult where
  | panics (val : String)
  | rets (vals : List GoRetVal)

/-- A typed-kind user function that passed `validateTypedFunction`. -/
structure TypedFn (α : Type) where
  decode : String → Except String α
  call : α → TypedCallResult

/-- `runUserFunctionWithContext`: decode the data bytes into the second
parameter type, then invoke; a decode failure is a 400/`crash`, a panic is
recovered into a 500/`crash`, a non-nil returned error is a 500/`error`.
Returns the state and whether the user function was invoked. -/
def runUserFunctionWithContext (st : HTTPState) (stack : String)
    (data : String) (fn : EventFn α) : HTTPState × Bool :=
  match fn.decode data with
  | .error e =>
    (writeHTTPErrorResponse st 400 crashStatus
      ("Error: " ++ e ++ ", while converting event data: " ++ data), false)
  | .ok a =>
    match fn.call a with
    | .panics v => (recoverPanicState st "user function execution" v stack true, true)
    | .rets (some e) =>
      (writeHTTPErrorResponse st 500 errorStatus (fmtFunctionError e), true)
    | .rets none => (st, true)

/-- The `firstVal` half of `handleTypedReturn` (reached when the last
return value is not a non-nil error): `reflect.TypeOf` of a nil interface
value is the nil `Type`, so `AssignableTo` on it panics (`true` in the
second component); a non-error first value has its JSON encoding printed
to the body via `fmt.Fprintf` with the encoding as format string. -/
def handleTypedFirstReturn (st : HTTPState) (v0 : GoRetVal) : HTTPState × Bool :=
  match v0.dyn with
  | none => (st, true)
  | some d =>
    if !d.assignableToError then
      ({ st with w := { st.w with body := st.w.body ++ fprintfNoOperands d.jsonEnc } },
       false)
    else (st, false)

/-- `handleTypedReturn`.  The boolean records a panic raised inside it
(calling `AssignableTo` on the nil `reflect.Type` of a nil first return
value), to be recovered by the deferred `recoverPanic` of the caller. -/
def handleTypedReturn (st : HTTPState) (funcReturn : List GoRetVal) :
    HTTPState × Bool :=
  match funcReturn with
  | [] => (st, false)
  | v0 :: rest =>
    let errorVal := (v0 :: rest).getLast (List.cons_ne_nil v0 rest)
    match errorVal.dyn with
    | some d =>
      if d.assignableToError then
        (writeHTTPErrorResponse st 500 errorStatus (fmtFunctionError d.errText), false)
      else handleTypedFirstReturn st v0
    | none => handleTypedFirstReturn st v0

/-- The request handler installed by `wrapTypedFunction` (after
`validateTypedFunction` succeeded). -/
def wrapTypedFunctionHandler (fn : TypedFn α) (stack : String) (r : Request)
    (st : HTTPState) : HTTPState × Bool :=
  match readHTTPRequestBody r with
  | .error e => (writeHTTPErrorResponse st 400 crashStatus e, false)
  | .ok body =>
    match fn.decode body.raw with
    | .error e =>
      (writeHTTPErrorResponse st 400 crashStatus
        ("Error while converting input data. " ++ e), false)
    | .ok a =>
      match fn.call a with
      | .panics v => (recoverPanicState st "user function execution" v stack true, true)
      | .rets vals =>
        match handleTypedReturn st vals with
        | (st', false) => (st', true)
        | (st', true) => (recoverPanicState st' "user function execution"
            "runtime error: invalid memory address or nil pointer dereference"
            stack true, true)

/-- An HTTP-kind user function: it receives the writer and may perform
arbitrary writes before returning or panicking. -/
structure HTTPFnModel where
  act : HTTPState → HTTPState × Option String

/-- The request handler installed by `wrapHTTPFunction`: run the function,
recovering a panic into the generic 500/`crash` response. -/
def wrapHTTPFunctionHandler (fn : HTTPFnModel) (stack : String)
    (st : HTTPState) : HTTPState :=
  match fn.act st with
  | (st', none) => st'
  | (st', some v) => recoverPanicState st' "user function execution" v stack true

inductive CECallResult where
  | panics (val : String)
  | rets (err : Option String)

/-- What `logErrFn` (the wrapper installed around a CloudEvent-kind user
function by `wrapCloudEventFunction`) does: a returned error is also
printed to stderr (via `Fprintf` with the formatted text as format string)
and handed to the CloudEvents codec; a panic is logged by
`recoverPanic(nil, …, true)` — which writes no response — and re-raised. -/
inductive LogErrFnOutcome where
  | returned (err : Option String)
  | propagatedPanic (val : String)

def logErrFn (fnResult : CECallResult) (stack : String) (stderr : String) :
    String × LogErrFnOutcome :=
  match fnResult with
  | .panics v =>
    let genericMsg := panicGenericMsg "user function execution"
    (stderr ++ genericMsg ++ "\npanic message: " ++ v ++ "\nstack trace: " ++
      v ++ "\n" ++ stack, .propagatedPanic v)
  | .rets (some e) => (stderr ++ fprintfNoOperands (fmtFunctionError e), .returned (some e))
  | .rets none => (stderr, .returned none)

end FFGo

namespace FFGo

/-! ## Time values (`time.Time` as used through `encoding/json`)

`metadata.Metadata.Timestamp` is a `time.Time`; through JSON it only ever
carries what `time.Parse(time.RFC3339, …)` accepted, so it is embedded as
the parsed broken-down value.  `Format(time.RFC3339)` renders without
fractional seconds and prints `Z` for a zero zone offset. -/

structure GoTime where
  year : Nat
  month : Nat
  day : Nat
  hour : Nat
  minute : Nat
  second : Nat
  nanos : Nat
  offsetMinutes : Int
  deriving DecidableEq, Repr

/-- The zero `time.Time` (as far as RFC3339 rendering is concerned). -/
def zeroGoTime : GoTime :=
  { year := 1, month := 1, day := 1, hour := 0, minute := 0, second := 0,
    nanos := 0, offsetMinutes := 0 }

def isLeapYear (y : Nat) : Bool :=
  y % 4 = 0 && (y % 100 ≠ 0 || y % 400 = 0)

def daysInMonth (y m : Nat) : Nat :=
  if m = 2 then (if isLeapYear y then 29 else 28)
  else if m = 4 ∨ m = 6 ∨ m = 9 ∨ m = 11 then 30
  else 31

def digitVal (c : Char) : Option Nat :=
  if c.isDigit then some (c.toNat - 48) else none

/-- Read exactly `n` digits from the front, returning the value and the
rest. -/
def readDigits : Nat → List Char → Option (Nat × List Char)
  | 0, cs => some (0, cs)
  | _ + 1, [] => none
  | n + 1, c :: cs => do
    let d ← digitVal c
    let (v, rest) ← readDigits n cs
    return (d * 10 ^ n + v, rest)

/-- Strict RFC3339 parse, as `time.Parse(time.RFC3339, s)` (with the
optional fractional-second part `time.Parse` always accepts). -/
def parseRFC3339 (s : String) : Option GoTime := do
  let (y, r) ← readDigits 4 s.data
  let ('-' :: r) := r | none
  let (mo, r) ← readDigits 2 r
  let ('-' :: r) := r | none
  let (d, r) ← readDigits 2 r
  let ('T' :: r) := r | none
  let (h, r) ← readDigits 2 r
  let (':' :: r) := r | none
  let (mi, r) ← readDigits 2 r
  let (':' :: r) := r | none
  let (sec, r) ← readDigits 2 r
  let (frac, r) :=
    match r with
    | '.' :: r' =>
      let digs := r'.takeWhile Char.isDigit
      if digs.isEmpty then (none, r)
      else (some digs, r'.dropWhile Char.isDigit)
    | _ => (none, r)
  let frac9 := ((frac.getD []).take 9)
  let nanos := frac9.foldl (fun a c => a * 10 + (c.toNat - 48)) 0 *
    10 ^ (9 - frac9.length)
  let off : Int ← match r with
    | ['Z'] => some 0
    | c :: r' =>
      if c = '+' ∨ c = '-' then do
        let (zh, r'') ← readDigits 2 r'
        let (':' :: r'') := r'' | none
        let (zm, r'') ← readDigits 2 r''
        let ([]) := r'' | none
        if zh ≤ 23 ∧ zm ≤ 59 then
          some (if c = '-' then -((zh * 60 + zm : Nat) : Int) else ((zh * 60 + zm : Nat) : Int))
        else none
      else none
    | [] => none
  if 1 ≤ mo ∧ mo ≤ 12 ∧ 1 ≤ d ∧ d ≤ daysInMonth y mo ∧ h ≤ 23 ∧ mi ≤ 59 ∧
      sec ≤ 59 then
    return { year := y, month := mo, day := d, hour := h, minute := mi,
             second := sec, nanos := nanos, offsetMinutes := off }
  else none

def pad2 (n : Nat) : String :=
  if n < 10 then "0" ++ toString n else toString n

def pad4 (n : Nat) : String :=
  if n < 10 then "000" ++ toString n
  else if n < 100 then "00" ++ toString n
  else if n < 1000 then "0" ++ toString n
  else toString n

/-- `t.Format(time.RFC3339)` (no fractional seconds in that layout). -/
def GoTime.formatRFC3339 (t : GoTime) : String :=
  pad4 t.year ++ "-" ++ pad2 t.month ++ "-" ++ pad2 t.day ++ "T" ++
  pad2 t.hour ++ ":" ++ pad2 t.minute ++ ":" ++ pad2 t.second ++
  (if t.offsetMinutes = 0 then "Z"
   else
     let off := t.offsetMinutes.natAbs
     (if t.offsetMinutes < 0 then "-" else "+") ++
       pad2 (off / 60) ++ ":" ++ pad2 (off % 60))

/-! ## Standard base64 (for decoding a JSON string into a Go `[]byte`) -/

def base64Val (c : Char) : Option Nat :=
  if 'A' ≤ c ∧ c ≤ 'Z' then some (c.toNat - 65)
  else if 'a' ≤ c ∧ c ≤ 'z' then some (c.toNat - 97 + 26)
  else if '0' ≤ c ∧ c ≤ '9' then some (c.toNat - 48 + 52)
  else if c = '+' then some 62
  else if c = '/' then some 63
  else none

/-- Decode one 4-character group (the last group may carry `=` padding). -/
def base64Group : List Char → Option (List Nat)
  | [a, b, '=', '='] => do
    let va ← base64Val a
    let vb ← base64Val b
    return [va * 4 + vb / 16]
  | [a, b, c, '='] => do
    let va ← base64Val a
    let vb ← base64Val b
    let vc ← base64Val c
    return [va * 4 + vb / 16, (vb % 16) * 16 + vc / 4]
  | [a, b, c, d] => do
    let va ← base64Val a
    let vb ← base64Val b
    let vc ← base64Val c
    let vd ← base64Val d
    return [va * 4 + vb / 16, (vb % 16) * 16 + vc / 4, (vc % 4) * 64 + vd]
  | _ => none

def base64DecodeAux : List Char → Option (List Nat)
  | [] => some []
  | a :: b :: c :: d :: rest => do
    let g ← base64Group [a, b, c, d]
    if rest.isEmpty then
      return g
    else
      if c = '=' ∨ d = '=' then none
      else
        let gs ← base64DecodeAux rest
        return g ++ gs
  | _ => none

/-- `base64.StdEncoding.DecodeString`. -/
def base64Decode (s : String) : Option (List Nat) :=
  base64DecodeAux s.data

end FFGo

namespace FFGo

/-! ## Conversion tables and resource splitting (`funcframework/events.go`) -/

def firebaseAuthCEService : String := "firebaseauth.googleapis.com"

def firebaseCEService : String := "firebase.googleapis.com"

def firebaseDBCEService : String := "firebasedatabase.googleapis.com"

def firestoreCEService : String := "firestore.googleapis.com"

def pubSubCEService : String := "pubsub.googleapis.com"

def storageCEService : String := "storage.googleapis.com"

def ceSpecVersion : String := "1.0"

def jsonContentType : String := "application/cloudevents+json"

/-- `typeBackgroundToCloudEvent` (a Go map; embedded as its entry list —
only lookups are performed on it). -/
def typeBackgroundToCloudEvent : List (String × String) :=
  [("google.pubsub.topic.publish", "google.cloud.pubsub.topic.v1.messagePublished"),
   ("providers/cloud.pubsub/eventTypes/topic.publish", "google.cloud.pubsub.topic.v1.messagePublished"),
   ("google.storage.object.finalize", "google.cloud.storage.object.v1.finalized"),
   ("google.storage.object.delete", "google.cloud.storage.object.v1.deleted"),
   ("google.storage.object.archive", "google.cloud.storage.object.v1.archived"),
   ("google.storage.object.metadataUpdate", "google.cloud.storage.object.v1.metadataUpdated"),
   ("providers/cloud.firestore/eventTypes/document.write", "google.cloud.firestore.document.v1.written"),
   ("providers/cloud.firestore/eventTypes/document.create", "google.cloud.firestore.document.v1.created"),
   ("providers/cloud.firestore/eventTypes/document.update", "google.cloud.firestore.document.v1.updated"),
   ("providers/cloud.firestore/eventTypes/document.delete", "google.cloud.firestore.document.v1.deleted"),
   ("providers/firebase.auth/eventTypes/user.create", "google.firebase.auth.user.v1.created"),
   ("providers/firebase.auth/eventTypes/user.delete", "google.firebase.auth.user.v1.deleted"),
   ("providers/google.firebase.analytics/eventTypes/event.log", "google.firebase.analytics.log.v1.written"),
   ("providers/google.firebase.database/eventTypes/ref.create", "google.firebase.database.document.v1.created"),
   ("providers/google.firebase.database/eventTypes/ref.write", "google.firebase.database.document.v1.written"),
   ("providers/google.firebase.database/eventTypes/ref.update", "google.firebase.database.document.v1.updated"),
   ("providers/google.firebase.database/eventTypes/ref.delete", "google.firebase.database.document.v1.deleted"),
   ("providers/cloud.storage/eventTypes/object.change", "google.cloud.storage.object.v1.finalized")]

/-- `serviceBackgroundToCloudEvent` (a Go map iterated without `break`;
embedded as its entry list, with the iteration-order independence proved
below). -/
def serviceBackgroundToCloudEvent : List (String × String) :=
  [("providers/cloud.firestore/", firestoreCEService),
   ("providers/google.firebase.analytics/", firebaseCEService),
   ("providers/firebase.auth/", firebaseAuthCEService),
   ("providers/google.firebase.database/", firebaseDBCEService),
   ("providers/cloud.pubsub/", pubSubCEService),
   ("providers/cloud.storage/", storageCEService),
   ("google.pubsub", pubSubCEService),
   ("google.storage", storageCEService)]

/-- `strings.HasPrefix(s, pre)` (byte-wise, i.e. character-list, prefix
test). -/
def goHasPrefix (s pre : String) : Bool :=
  pre.data.isPrefixOf s.data

/-- Drop the first `n` characters (all literals below are ASCII, so
character counts and byte counts agree). -/
def charDrop (s : String) (n : Nat) : String :=
  String.mk (s.data.drop n)

/-- The `service` prefix-scan loop in `createCloudEventRequest`: iterate
over the whole table, overwriting `service` at every key that is a prefix
of the event type (no `break`). -/
def scanServiceForEventType (table : List (String × String))
    (eventType : String) : String :=
  table.foldl
    (fun service kv => if goHasPrefix eventType kv.1 then kv.2 else service) ""

/-! ### The per-service resource-splitting regexps (`ceServiceToResourceRe`)

Each regexp is anchored (`^…$`) and built from two capture groups separated
by a literal `/`, where the segment classes `[^/]+` cannot cross a `/`, so
a successful `FindStringSubmatch` is a unique decomposition of the whole
string.  Each is embedded as a total matching function returning the two
capture groups.  `.` and `.+` in Go regexps do not match a newline. -/

/-- Split `s` at the first occurrence of `sep`: `some (a, b)` with
`s = a ++ sep ++ b` and `sep` not occurring in `a`. -/
def splitFirstChar (sep : Char) (s : String) : Option (String × String) :=
  let pre := s.data.takeWhile (· ≠ sep)
  match s.data.dropWhile (· ≠ sep) with
  | [] => none
  | _ :: rest => some (String.mk pre, String.mk rest)

/-- `^(projects/[^/]+)/(events/[^/]+)$` (service `firebase.googleapis.com`). -/
def firebaseResourceMatch (s : String) : Option (String × String) := do
  let rest ← if goHasPrefix s "projects/" then some (charDrop s 9) else none
  let (seg1, rest) ← splitFirstChar '/' rest
  if seg1 = "" then none
  let rest2 ← if goHasPrefix rest "events/" then some (charDrop rest 7) else none
  if rest2 = "" ∨ rest2.data.any (· = '/') then none
  return ("projects/" ++ seg1, "events/" ++ rest2)

/-- `^(projects/_/instances/[^/]+)/(refs/.+)$`
(service `firebasedatabase.googleapis.com`). -/
def firebaseDBResourceMatch (s : String) : Option (String × String) := do
  let rest ← if goHasPrefix s "projects/_/instances/" then some (charDrop s 21) else none
  let (seg1, rest) ← splitFirstChar '/' rest
  if seg1 = "" then none
  let rest2 ← if goHasPrefix rest "refs/" then some (charDrop rest 5) else none
  if rest2 = "" ∨ rest2.data.any (· = '\n') then none
  return ("projects/_/instances/" ++ seg1, "refs/" ++ rest2)

/-- `^(projects/[^/]+/databases/\(default\))/(documents/.+)$`
(service `firestore.googleapis.com`). -/
def firestoreResourceMatch (s : String) : Option (String × String) := do
  let rest ← if goHasPrefix s "projects/" then some (charDrop s 9) else none
  let (seg1, rest) ← splitFirstChar '/' rest
  if seg1 = "" then none
  let rest2 ← if goHasPrefix rest "databases/(default)/" then some (charDrop rest 20) else none
  let rest3 ← if goHasPrefix rest2 "documents/" then some (charDrop rest2 10) else none
  if rest3 = "" ∨ rest3.data.any (· = '\n') then none
  return ("projects/" ++ seg1 ++ "/databases/(default)", "documents/" ++ rest3)

/-- `^(projects/_/buckets/[^/]+)/(objects/.+)$`
(service `storage.googleapis.com`). -/
def storageResourceMatch (s : String) : Option (String × String) := do
  let rest ← if goHasPrefix s "projects/_/buckets/" then some (charDrop s 19) else none
  let (seg1, rest) ← splitFirstChar '/' rest
  if seg1 = "" then none
  let rest2 ← if goHasPrefix rest "objects/" then some (charDrop rest 8) else none
  if rest2 = "" ∨ rest2.data.any (· = '\n') then none
  return ("projects/_/buckets/" ++ seg1, "objects/" ++ rest2)

/-- `ceServiceToResourceRe`, as a map from service to matcher. -/
def ceServiceToResourceRe : List (String × (String → Option (String × String))) :=
  [(firebaseCEService, firebaseResourceMatch),
   (firebaseDBCEService, firebaseDBResourceMatch),
   (firestoreCEService, firestoreResourceMatch),
   (storageCEService, storageResourceMatch)]

/-- `splitResource`.  On a successful anchored match, `FindStringSubmatch`
returns exactly the full match and the two capture groups (each regexp in
the table has exactly two groups, per its documented invariant), so the
`len(match) != 3` branch is unreachable. -/
def splitResource (service resource : String) : String × String × Option String :=
  match ceServiceToResourceRe.lookup service with
  | none => (resource, "", none)
  | some re =>
    match re resource with
    | none => (resource, "", some "resource regexp did not match")
    | some (res, subj) => (res, subj, none)

/-! ## Legacy Pub/Sub push payloads (`internal/events/pubsub/pubsub.go`) -/

def pubsubEventType : String := "google.pubsub.topic.publish"

def pubsubMessageType : String := "type.googleapis.com/google.pubusb.v1.PubsubMessage"

def pubsubService : String := "pubsub.googleapis.com"

/-- One attempt of the topic regexp
`(projects\/[^/?]+\/topics\/[^/?]+)/*` at the start of `cs`: the segment
classes exclude `/` and `?`, so the greedy match at a fixed position is
the unique maximal-segment decomposition. -/
def topicMatchHere (cs : List Char) : Option (List Char) := do
  let pfx := "projects/".data
  let rest ← if pfx.isPrefixOf cs then some (cs.drop 9) else none
  let seg1 := rest.takeWhile (fun c => c ≠ '/' ∧ c ≠ '?')
  let rest := rest.dropWhile (fun c => c ≠ '/' ∧ c ≠ '?')
  if seg1.isEmpty then none
  let tpfx := "/topics/".data
  let rest2 ← if tpfx.isPrefixOf rest then some (rest.drop 8) else none
  let seg2 := rest2.takeWhile (fun c => c ≠ '/' ∧ c ≠ '?')
  if seg2.isEmpty then none
  return pfx ++ seg1 ++ tpfx ++ seg2

/-- Leftmost match of the topic regexp over the path. -/
def topicMatchSearch : List Char → Option (List Char)
  | [] => none
  | c :: rest =>
    match topicMatchHere (c :: rest) with
    | some m => some m
    | none => topicMatchSearch rest

/-- `pubsub.ExtractTopicFromRequestPath`: first submatch of the topic
regexp, or an error when the path contains no match. -/
def extractTopicFromRequestPath (path : String) : Except String String :=
  match topicMatchSearch path.data with
  | some m => .ok (String.mk m)
  | none =>
    .error ("failed to extract Pub/Sub topic name from the URL request path: \x22" ++
      path ++ "\x22, configure your subscription's push endpoint to use " ++
      "the following path pattern: 'projects/PROJECT_NAME/topics/TOPIC_NAME'")

end FFGo


namespace FFGo

/-! ## `json.Unmarshal` into the event structs

Embeds `encoding/json` decoding into the specific Go types involved in
`getBackgroundEvent`:

* `possibleEvents` (embedded `*pubsub.LegacyEvent` and
  `*fftypes.BackgroundEvent`),
* `metadata.Metadata` (with `*metadata.Resource` and its custom
  string-or-struct `UnmarshalJSON`),
* `pubsub.LegacyEvent`/`Message` (promoted `pubsub.Message` fields plus
  the tagged `messageId` field).

Conventions taken from `encoding/json`: object keys are matched against
field tags/names exactly or ASCII-case-insensitively; unknown keys are
ignored; a JSON `null` stores `nil` into pointer, slice, map and interface
fields and is a no-op elsewhere; a type mismatch is an error (the decoder
records the first error; since every caller here aborts on any error, the
embedding returns at the first error); duplicate keys are processed
sequentially, last occurrence winning. -/

def foldChar (c : Char) : Char :=
  if 'A' ≤ c ∧ c ≤ 'Z' then Char.ofNat (c.toNat + 32) else c

/-- ASCII `strings.EqualFold`. -/
def eqFold (a b : String) : Bool :=
  a.data.map foldChar = b.data.map foldChar

/-- JSON key `key` resolves to the struct field tagged/named `field`. -/
def keyMatches (key field : String) : Bool :=
  key = field || eqFold key field

/-- Replace the value at a key, or append (Go map assignment). -/
def setAssoc (l : List (String × α)) (key : String) (v : α) : List (String × α) :=
  match l with
  | [] => [(key, v)]
  | (k, w) :: rest => if k = key then (k, v) :: rest else (k, w) :: setAssoc rest key v

/-- Collapse duplicate keys (sequential map assignment, last wins). -/
def dedupFields (fields : List (String × Jx)) : List (String × Jx) :=
  fields.foldl (fun acc kv => setAssoc acc kv.1 kv.2) []

mutual

/-- The value part of decoding into an `interface{}`: objects become
`map[string]interface{}` (duplicate keys collapse, last wins). -/
def canonValue : Jx → Jx
  | .null => .null
  | .bool b => .bool b
  | .num lit => .num lit
  | .str s => .str s
  | .bytes bs => .bytes bs
  | .strmap m => .strmap m
  | .arr elems => .arr (canonArr elems)
  | .obj fields => .obj (dedupFields (canonObj fields))

def canonArr : List Jx → List Jx
  | [] => []
  | j :: rest => canonValue j :: canonArr rest

def canonObj : List (String × Jx) → List (String × Jx)
  | [] => []
  | (k, v) :: rest => (k, canonValue v) :: canonObj rest

end

/-- Decoding a JSON value into an `interface{}` field: `null` is Go
`nil`. -/
def decodeInterface : Jx → Option Jx
  | .null => none
  | j => some (canonValue j)

def decodeString (cur : String) : Jx → Except String String
  | .null => .ok cur
  | .str s => .ok s
  | _ => .error "json: cannot unmarshal value into Go value of type string"

def decodeTime (cur : GoTime) : Jx → Except String GoTime
  | .null => .ok cur
  | .str s =>
    match parseRFC3339 s with
    | some t => .ok t
    | none => .error ("parsing time " ++ s ++ " as RFC3339: cannot parse")
  | _ => .error "Time.UnmarshalJSON: input is not a JSON string"

/-- A `[]byte` field (`nil` distinguishable from empty). -/
def decodeBytes (_cur : Option (List Nat)) : Jx → Except String (Option (List Nat))
  | .null => .ok none
  | .str s =>
    match base64Decode s with
    | some bs => .ok (some bs)
    | none => .error "illegal base64 data"
  | _ => .error "json: cannot unmarshal value into Go value of type []uint8"

/-- A `map[string]string` field. -/
def decodeStrMap (cur : Option (List (String × String))) :
    Jx → Except String (Option (List (String × String)))
  | .null => .ok none
  | .obj fields =>
    (fields.foldlM
      (fun (m : List (String × String)) (kv : String × Jx) =>
        match kv.2 with
        | .null => (.ok (setAssoc m kv.1 "") : Except String _)
        | .str s => .ok (setAssoc m kv.1 s)
        | _ => .error "json: cannot unmarshal value into Go value of type string")
      (cur.getD [])).map some
  | _ => .error "json: cannot unmarshal value into Go value of type map[string]string"

/-- An integer JSON literal (an optional minus sign and digits; a
fractional or exponent part makes `strconv` reject it for an `int`). -/
def intLit? (lit : String) : Option Int :=
  let digits (cs : List Char) : Option Nat :=
    if cs.isEmpty ∨ cs.any (fun c => ¬ c.isDigit) then none
    else some (cs.foldl (fun a c => a * 10 + (c.toNat - 48)) 0)
  match lit.data with
  | '-' :: cs => (digits cs).map (fun n => -(n : Int))
  | cs => (digits cs).map (fun n => (n : Int))

/-- A `*int` field (`DeliveryAttempt`); the literal must parse as an
integer. -/
def decodeIntPtr (_cur : Option Int) : Jx → Except String (Option Int)
  | .null => .ok none
  | .num lit =>
    match intLit? lit with
    | some n => .ok (some n)
    | none => .error "json: cannot unmarshal number into Go value of type int"
  | _ => .error "json: cannot unmarshal value into Go value of type int"

/-- `metadata.Resource` (the Go field `Type` is spelled `Type'` here;
`RawPath` carries the tag `json:"-"` and is only set by the custom
unmarshaler). -/
structure Resource where
  Service : String
  Name : String
  Type' : String
  RawPath : String
  deriving DecidableEq, Repr

def zeroResource : Resource :=
  { Service := "", Name := "", Type' := "", RawPath := "" }

/-- `metadata.Metadata` (`Resource` is a `*metadata.Resource`). -/
structure Metadata where
  EventID : String
  Timestamp : GoTime
  EventType : String
  Resource : Option Resource
  deriving DecidableEq, Repr

def zeroMetadata : Metadata :=
  { EventID := "", Timestamp := zeroGoTime, EventType := "", Resource := none }

/-- The struct half of `Resource.UnmarshalJSON` (tags `service`, `name`,
`type`; unknown keys ignored). -/
def unmarshalResourceStruct (j : Jx) : Except String Resource :=
  match j with
  | .obj fields =>
    fields.foldlM
      (fun res kv =>
        if keyMatches kv.1 "service" then
          (decodeString res.Service kv.2).map (fun s => { res with Service := s })
        else if keyMatches kv.1 "name" then
          (decodeString res.Name kv.2).map (fun s => { res with Name := s })
        else if keyMatches kv.1 "type" then
          (decodeString res.Type' kv.2).map (fun s => { res with Type' := s })
        else .ok res)
      zeroResource
  | _ => .error "json: cannot unmarshal value into Go value of type metadata.Resource"

/-- `Resource.UnmarshalJSON`: a string is the raw path; otherwise decode
the `{service, name, type}` struct. -/
def unmarshalResource (j : Jx) : Except String Resource :=
  match j with
  | .str s => .ok { zeroResource with RawPath := s }
  | _ => unmarshalResourceStruct j

/-- A `*metadata.Resource` field. -/
def decodeResourcePtr (_cur : Option Resource) : Jx → Except String (Option Resource)
  | .null => .ok none
  | j => (unmarshalResource j).map some

/-- Decode into `metadata.Metadata` starting from `start` (tags `eventId`,
`timestamp`, `eventType`, `resource`). -/
def unmarshalMetadataInto (start : Metadata) (j : Jx) : Except String Metadata :=
  match j with
  | .null => .ok start
  | .obj fields =>
    fields.foldlM
      (fun m kv =>
        if keyMatches kv.1 "eventId" then
          (decodeString m.EventID kv.2).map (fun s => { m with EventID := s })
        else if keyMatches kv.1 "timestamp" then
          (decodeTime m.Timestamp kv.2).map (fun t => { m with Timestamp := t })
        else if keyMatches kv.1 "eventType" then
          (decodeString m.EventType kv.2).map (fun s => { m with EventType := s })
        else if keyMatches kv.1 "resource" then
          (decodeResourcePtr m.Resource kv.2).map (fun r => { m with Resource := r })
        else .ok m)
      start
  | _ => .error "json: cannot unmarshal value into Go value of type metadata.Metadata"

/-- The `Message` wrapper of `pubsub.LegacyEvent`: the promoted
`pubsub.Message` fields (`ID`, `Data`, `Attributes`, `PublishTime`,
`OrderingKey`, `DeliveryAttempt`) plus the tagged `messageId` field. -/
structure PubsubMessage where
  IdFromJSON : String
  ID : String
  Data : Option (List Nat)
  Attributes : Option (List (String × String))
  PublishTime : GoTime
  OrderingKey : String
  DeliveryAttempt : Option Int
  deriving DecidableEq, Repr

def zeroPubsubMessage : PubsubMessage :=
  { IdFromJSON := "", ID := "", Data := none, Attributes := none,
    PublishTime := zeroGoTime, OrderingKey := "", DeliveryAttempt := none }

def unmarshalMessageInto (start : PubsubMessage) (j : Jx) :
    Except String PubsubMessage :=
  match j with
  | .null => .ok start
  | .obj fields =>
    fields.foldlM
      (fun m kv =>
        if keyMatches kv.1 "messageId" then
          (decodeString m.IdFromJSON kv.2).map (fun s => { m with IdFromJSON := s })
        else if keyMatches kv.1 "ID" then
          (decodeString m.ID kv.2).map (fun s => { m with ID := s })
        else if keyMatches kv.1 "Data" then
          (decodeBytes m.Data kv.2).map (fun b => { m with Data := b })
        else if keyMatches kv.1 "Attributes" then
          (decodeStrMap m.Attributes kv.2).map (fun a => { m with Attributes := a })
        else if keyMatches kv.1 "PublishTime" then
          (decodeTime m.PublishTime kv.2).map (fun t => { m with PublishTime := t })
        else if keyMatches kv.1 "OrderingKey" then
          (decodeString m.OrderingKey kv.2).map (fun s => { m with OrderingKey := s })
        else if keyMatches kv.1 "DeliveryAttempt" then
          (decodeIntPtr m.DeliveryAttempt kv.2).map (fun d => { m with DeliveryAttempt := d })
        else .ok m)
      start
  | _ => .error "json: cannot unmarshal value into Go value of type pubsub.Message"

/-- `pubsub.LegacyEvent` (the `Message` wrapper is a tagged anonymous
field, so it behaves as a regular field named `message`). -/
structure LegacyEvent where
  Subscription : String
  Message : PubsubMessage
  deriving DecidableEq, Repr

def zeroLegacyEvent : LegacyEvent :=
  { Subscription := "", Message := zeroPubsubMessage }

/-- Modelled from the spec: `fftypes.BackgroundEvent` (the package
`internal/fftypes` is not among the sources; the spec's glossary and data
model give the legacy envelope `{context:{eventId,timestamp,eventType,
resource}, data}`, so the struct has a `Metadata *metadata.Metadata` field
tagged `context` and a `Data interface{}` field tagged `data`, exactly as
`funcframework/events.go` and `internal/events/pubsub/pubsub.go` use
them). -/
structure BackgroundEvent where
  Metadata : Option Metadata
  Data : Option Jx

def zeroBackgroundEvent : BackgroundEvent :=
  { Metadata := none, Data := none }

/-- `possibleEvents` (local to `getBackgroundEvent`): two embedded pointer
structs (fields spelled in lowercase here to avoid clashing with the
struct names); a pointer is allocated as soon as one of its promoted keys
occurs in the object. -/
structure PossibleEvents where
  legacyEvent : Option LegacyEvent
  backgroundEvent : Option BackgroundEvent

def unmarshalPossibleEvents (j : Jx) : Except String PossibleEvents :=
  match j with
  | .null => .ok { legacyEvent := none, backgroundEvent := none }
  | .obj fields =>
    fields.foldlM
      (fun pe kv =>
        if keyMatches kv.1 "subscription" then
          let le := pe.legacyEvent.getD zeroLegacyEvent
          (decodeString le.Subscription kv.2).map
            (fun s => { pe with legacyEvent := some { le with Subscription := s } })
        else if keyMatches kv.1 "message" then
          let le := pe.legacyEvent.getD zeroLegacyEvent
          (unmarshalMessageInto le.Message kv.2).map
            (fun m => { pe with legacyEvent := some { le with Message := m } })
        else if keyMatches kv.1 "context" then
          let be := pe.backgroundEvent.getD zeroBackgroundEvent
          ((match kv.2 with
            | .null => .ok (none : Option Metadata)
            | v => (unmarshalMetadataInto (be.Metadata.getD zeroMetadata) v).map some :
              Except String (Option Metadata))).map
            (fun md => { pe with backgroundEvent := some { be with Metadata := md } })
        else if keyMatches kv.1 "data" then
          let be := pe.backgroundEvent.getD zeroBackgroundEvent
          .ok { pe with backgroundEvent := some { be with Data := decodeInterface kv.2 } }
        else .ok pe)
      { legacyEvent := none, backgroundEvent := none }
  | _ => .error "json: cannot unmarshal value into Go value of type possibleEvents"

end FFGo

namespace FFGo

/-! ## `getBackgroundEvent` and legacy Pub/Sub synthesis -/

def bytesJx : Option (List Nat) → Jx
  | none => .null
  | some bs => .bytes bs

def strmapJx : Option (List (String × String)) → Jx
  | none => .null
  | some m => .strmap m

/-- `pubsub.ConvertLegacyEventToBackgroundEvent`. -/
def convertLegacyEventToBackgroundEvent (le : LegacyEvent) (topic : String) :
    BackgroundEvent :=
  { Metadata := some
      { EventID := le.Message.IdFromJSON,
        Timestamp := le.Message.PublishTime,
        EventType := pubsubEventType,
        Resource := some
          { Name := topic, Type' := pubsubMessageType, Service := pubsubService,
            RawPath := "" } },
    Data := some (.obj
      [("@type", .str pubsubMessageType),
       ("data", bytesJx le.Message.Data),
       ("attributes", strmapJx le.Message.Attributes)]) }

/-- The `encoding/json` syntax-error text for an unparseable body (the
exact wording is not relied on by any theorem). -/
def jsonSyntaxErrorMsg (raw : String) : String :=
  if raw = "" then "unexpected end of JSON input" else "invalid character in JSON input"

/-- The topic passed to the legacy Pub/Sub synthesis: extraction failure
only logs a warning and leaves the topic empty. -/
def topicOrEmpty (path : String) : String :=
  match extractTopicFromRequestPath path with
  | .ok t => t
  | .error _ => ""

/-- `getBackgroundEvent` (`funcframework/events.go`): unmarshal into the
event union (a failure of the outer unmarshal is a hard error); when only
the legacy Pub/Sub shape matched, synthesize a background event from it
(topic extraction failure only logs a warning and leaves the topic empty);
without a data payload return nils; with a `context` wrapper return it;
otherwise unmarshal the whole body into `Metadata` and accept it only when
`EventID` is non-empty. -/
def getBackgroundEvent (body : GoBody) (path : String) :
    Except String (Option Metadata × Option Jx) :=
  match body.parsed with
  | none => .error (jsonSyntaxErrorMsg body.raw)
  | some j =>
    match unmarshalPossibleEvents j with
    | .error e => .error e
    | .ok possible =>
      let event : Option BackgroundEvent :=
        match possible.backgroundEvent, possible.legacyEvent with
        | none, some le => some (convertLegacyEventToBackgroundEvent le (topicOrEmpty path))
        | be, _ => be
      match event with
      | none => .ok (none, none)
      | some ev =>
        match ev.Data with
        | none => .ok (none, none)
        | some data =>
          match ev.Metadata with
          | some md => .ok (some md, some data)
          | none =>
            match unmarshalMetadataInto zeroMetadata j with
            | .error e => .error e
            | .ok m =>
              if m.EventID = "" then .ok (none, none)
              else .ok (some m, some data)

/-! ## `json.Marshal` of the JSON universe

Go marshals maps with byte-wise sorted keys; `[]byte` marshals to its
standard base64; `encodeData` uses an encoder with `SetEscapeHTML(false)`
and appends a newline.  (Two unobservable simplifications: number literals
are emitted as decoded rather than re-canonicalized through `float64`, and
the HTML escaping difference between `json.Marshal` and the
`SetEscapeHTML(false)` encoder is dropped — no theorem below inspects the
marshalled text of a value containing numbers or HTML characters.) -/

def hexDigit (n : Nat) : Char :=
  if n < 10 then Char.ofNat (48 + n) else Char.ofNat (87 + n)

def jsonQuote (s : String) : String :=
  "\x22" ++ String.join (s.data.map (fun c =>
    if c = '\x22' then "\\\x22"
    else if c = '\\' then "\\\\"
    else if c = '\n' then "\\n"
    else if c = '\r' then "\\r"
    else if c = '\t' then "\\t"
    else if c.toNat < 32 then
      "\\u00" ++ String.mk [hexDigit (c.toNat / 16), hexDigit (c.toNat % 16)]
    else String.mk [c])) ++ "\x22"

def base64Chars : String :=
  "ABCDEFGHIJKLMNOPQRSTUVWXYZabcdefghijklmnopqrstuvwxyz0123456789+/"

def base64Char (n : Nat) : Char :=
  base64Chars.data.getD n 'A'

def base64Encode : List Nat → String
  | [] => ""
  | [a] =>
    String.mk [base64Char (a / 4), base64Char (a % 4 * 16)] ++ "=="
  | [a, b] =>
    String.mk [base64Char (a / 4), base64Char (a % 4 * 16 + b / 16),
      base64Char (b % 16 * 4)] ++ "="
  | a :: b :: c :: rest =>
    String.mk [base64Char (a / 4), base64Char (a % 4 * 16 + b / 16),
      base64Char (b % 16 * 4 + c / 64), base64Char (c % 64)] ++
      base64Encode rest

def insertSortedEntry (kv : String × α) : List (String × α) → List (String × α)
  | [] => [kv]
  | kv' :: rest =>
    if decide (kv.1 ≤ kv'.1) then kv :: kv' :: rest
    else kv' :: insertSortedEntry kv rest

/-- Byte-wise key sort (Go marshals maps in sorted key order). -/
def sortEntries (l : List (String × α)) : List (String × α) :=
  l.foldr insertSortedEntry []

def dedupEntries (l : List (String × α)) : List (String × α) :=
  l.foldl (fun acc kv => setAssoc acc kv.1 kv.2) []

def commaJoin : List String → String
  | [] => ""
  | [s] => s
  | s :: rest => s ++ "," ++ commaJoin rest

mutual

def jxMarshal : Jx → String
  | .null => "null"
  | .bool b => if b then "true" else "false"
  | .num lit => lit
  | .str s => jsonQuote s
  | .bytes bs => jsonQuote (base64Encode bs)
  | .strmap m =>
    "\x7b" ++ commaJoin ((sortEntries (dedupEntries m)).map
      (fun kv => jsonQuote kv.1 ++ ":" ++ jsonQuote kv.2)) ++ "\x7d"
  | .arr elems => "[" ++ commaJoin (jxMarshalArr elems) ++ "]"
  | .obj fields =>
    "\x7b" ++ commaJoin ((sortEntries (dedupEntries (jxMarshalObj fields))).map
      (fun kv => jsonQuote kv.1 ++ ":" ++ kv.2)) ++ "\x7d"

def jxMarshalArr : List Jx → List String
  | [] => []
  | j :: rest => jxMarshal j :: jxMarshalArr rest

def jxMarshalObj : List (String × Jx) → List (String × String)
  | [] => []
  | (k, v) :: rest => (k, jxMarshal v) :: jxMarshalObj rest

end

end FFGo

namespace FFGo

/-! ## Background → CloudEvent conversion (`createCloudEventRequest`) -/

/-- `fmt.Sprintf("%v", x)` for a decoded JSON value (`<nil>` for nil,
Go-style renderings elsewhere; float64 re-rendering of numbers is
approximated by the literal — no theorem inspects it). -/
def fmtV : Jx → String
  | .null => "<nil>"
  | .bool b => if b then "true" else "false"
  | .num lit => lit
  | .str s => s
  | .bytes bs => "[" ++ spaceJoin (bs.map toString) ++ "]"
  | .strmap m =>
    "map[" ++ spaceJoin ((sortEntries m).map (fun kv => kv.1 ++ ":" ++ kv.2)) ++ "]"
  | .arr elems => "[" ++ spaceJoin (fmtVList elems) ++ "]"
  | .obj fields =>
    "map[" ++ spaceJoin ((sortEntries (dedupEntries (fmtVObj fields))).map
      (fun kv => kv.1 ++ ":" ++ kv.2)) ++ "]"
where
  spaceJoin : List String → String
    | [] => ""
    | [s] => s
    | s :: rest => s ++ " " ++ spaceJoin rest
  fmtVList : List Jx → List String
    | [] => []
    | j :: rest => fmtV j :: fmtVList rest
  fmtVObj : List (String × Jx) → List (String × String)
    | [] => []
    | (k, v) :: rest => (k, fmtV v) :: fmtVObj rest

def removeKey (l : List (String × Jx)) (key : String) : List (String × Jx) :=
  l.filter (fun kv => kv.1 ≠ key)

/-- One map rename `m[new] = m[old]; delete(m, old)` when `old` is
present. -/
def renameKey (l : List (String × Jx)) (old new : String) : List (String × Jx) :=
  match Jx.lookupField l old with
  | some v => setAssoc (removeKey l old) new v
  | none => l

/-- `convertBackgroundFirebaseAuthMetadata`: when the data is a map with a
map under `metadata`, rename `createdAt` to `createTime` and
`lastSignedInAt` to `lastSignInTime` (the two renames touch different keys,
so the map iteration order is immaterial). -/
def convertBackgroundFirebaseAuthMetadata (d : Jx) : Jx :=
  match d with
  | .obj fields =>
    match Jx.lookupField fields "metadata" with
    | some (.obj mfields) =>
      let m := renameKey (renameKey mfields "createdAt" "createTime")
        "lastSignedInAt" "lastSignInTime"
      .obj (setAssoc fields "metadata" (.obj m))
    | _ => .obj fields
  | _ => d

/-- `firebaseAuthSubject`: `users/` followed by the `%v` rendering of the
`uid` field. -/
def firebaseAuthSubject (d : Jx) : Except String String :=
  match d with
  | .obj fields =>
    match Jx.lookupField fields "uid" with
    | some v => .ok ("users/" ++ fmtV v)
    | none => .error "data does not contain field \x22uid\x22"
  | _ => .error "data is not a map from string to interface"

inductive CreateCEResult where
  | ok (r : Request)
  | fail (rc : Nat) (msg : String)
  | panics (msg : String)

/-- `createCloudEventRequest`: extract the background event, map its event
type and service to their CloudEvent equivalents, split the resource,
apply the Pub/Sub data wrapping and the Firebase Auth field remapping,
assemble the structured CloudEvent and replace the request body (the
`Content-Type` rewrite happens as soon as the background event is
extracted; `Content-Length` is not tracked by the embedding).  A
background event without a `resource` dereferences the nil
`md.Resource` (`panics`).  This revision's three-result
`readHTTPRequestBody` is not among the sources; only its success path is
reached by the theorems below, and a missing body is given the usual
400. -/
def createCloudEventRequest (r : Request) : CreateCEResult :=
  match readHTTPRequestBody r with
  | .error e => .fail 400 e
  | .ok body =>
    match getBackgroundEvent body r.path with
    | .error e => .fail 415 ("parsing background event body " ++ body.raw ++ ": " ++ e)
    | .ok (mdOpt, dOpt) =>
      match mdOpt, dOpt with
      | some md, some d0 =>
        let r := { r with contentTypeHeader := jsonContentType }
        match typeBackgroundToCloudEvent.lookup md.EventType with
        | none =>
          .fail 415 ("unable to find CloudEvent equivalent event type for " ++ md.EventType)
        | some t =>
          match md.Resource with
          | none => .panics "runtime error: invalid memory address or nil pointer dereference"
          | some mdRes =>
            let service :=
              if mdRes.Service = "" then
                scanServiceForEventType serviceBackgroundToCloudEvent md.EventType
              else mdRes.Service
            if service = "" then
              .fail 415 ("unable to find CloudEvent equivalent service for " ++ md.EventType)
            else
              let resource0 := if mdRes.Name = "" then mdRes.RawPath else mdRes.Name
              match splitResource service resource0 with
              | (_, _, some e) => .fail 415 e
              | (resource, subject0, none) =>
                let d :=
                  if service = pubSubCEService then Jx.obj [("message", d0)]
                  else if service = firebaseAuthCEService then
                    convertBackgroundFirebaseAuthMetadata d0
                  else d0
                let subject :=
                  if service = firebaseAuthCEService then
                    match firebaseAuthSubject d with
                    | .ok s => s
                    | .error _ => subject0
                  else subject0
                let ce := Jx.obj
                  ([("id", .str md.EventID),
                    ("time", .str md.Timestamp.formatRFC3339),
                    ("specversion", .str ceSpecVersion),
                    ("datacontenttype", .str "application/json"),
                    ("type", .str t),
                    ("source", .str ("//" ++ service ++ "/" ++ resource)),
                    ("data", d)] ++
                   (if subject ≠ "" then [("subject", .str subject)] else []))
                .ok { r with body := some { raw := jxMarshal ce, parsed := some ce } }
      | _, _ => .fail 415 ("unable to extract background event from " ++ body.raw)

end FFGo

namespace FFGo

/-! ## CloudEvent → background event conversion (modelled)

`shouldConvertCloudEventToBackgroundRequest` and
`convertCloudEventToBackgroundRequest` are called by
`funcframework/framework.go` but their definitions are not among the
sources; both are modelled from the spec (§4.3 and the structured/binary
detection rule) and pinned by the repository's own tests
(`funcframework/events_test.go`). -/

/-- Modelled from the spec: the reverse of the event-type table used by
`convertCloudEventToBackgroundRequest` ("the inverse mapping … is
reconstructed from the same tables"); where two background types share a
CloudEvent type the canonical entry of the tests is used, and the
Firebase-database CloudEvent types are the `ref.v1` names the tests
exercise. -/
def typeCloudEventToBackground : List (String × String) :=
  [("google.cloud.pubsub.topic.v1.messagePublished", "google.pubsub.topic.publish"),
   ("google.cloud.storage.object.v1.finalized", "google.storage.object.finalize"),
   ("google.cloud.storage.object.v1.deleted", "google.storage.object.delete"),
   ("google.cloud.storage.object.v1.archived", "google.storage.object.archive"),
   ("google.cloud.storage.object.v1.metadataUpdated", "google.storage.object.metadataUpdate"),
   ("google.cloud.firestore.document.v1.written", "providers/cloud.firestore/eventTypes/document.write"),
   ("google.cloud.firestore.document.v1.created", "providers/cloud.firestore/eventTypes/document.create"),
   ("google.cloud.firestore.document.v1.updated", "providers/cloud.firestore/eventTypes/document.update"),
   ("google.cloud.firestore.document.v1.deleted", "providers/cloud.firestore/eventTypes/document.delete"),
   ("google.firebase.auth.user.v1.created", "providers/firebase.auth/eventTypes/user.create"),
   ("google.firebase.auth.user.v1.deleted", "providers/firebase.auth/eventTypes/user.delete"),
   ("google.firebase.analytics.log.v1.written", "providers/google.firebase.analytics/eventTypes/event.log"),
   ("google.firebase.database.ref.v1.created", "providers/google.firebase.database/eventTypes/ref.create"),
   ("google.firebase.database.ref.v1.written", "providers/google.firebase.database/eventTypes/ref.write"),
   ("google.firebase.database.ref.v1.updated", "providers/google.firebase.database/eventTypes/ref.update"),
   ("google.firebase.database.ref.v1.deleted", "providers/google.firebase.database/eventTypes/ref.delete")]

/-- The CloudEvent attributes of a request: binary encoding when any
`ce-*` header is present, else structured encoding read from the JSON
body.  `data` is the body (binary) or the `data` member (structured). -/
structure CEAttrs where
  specversion : String
  ceType : String
  source : String
  id : String
  subject : String
  time : String
  data : Option Jx

def jxStringAt (fields : List (String × Jx)) (key : String) : String :=
  match Jx.lookupField fields key with
  | some (.str s) => s
  | _ => ""

/-- Modelled from the spec: CloudEvent attribute extraction — "presence of
any of `Ce-Type`/`Ce-Specversion`/`Ce-Source`/`Ce-Id` headers ⇒ binary;
else a JSON body with those fields inline ⇒ structured". -/
def getCEAttrs (r : Request) : Option CEAttrs :=
  if r.ceIdHeader ≠ "" ∨ r.ceTypeHeader ≠ "" ∨ r.ceSourceHeader ≠ "" ∨
      r.ceSpecVersionHeader ≠ "" then
    some { specversion := r.ceSpecVersionHeader, ceType := r.ceTypeHeader,
           source := r.ceSourceHeader, id := r.ceIdHeader, subject := "",
           time := "", data := (r.body.bind (·.parsed)) }
  else
    match r.body.bind (·.parsed) with
    | some (.obj fields) =>
      some { specversion := jxStringAt fields "specversion",
             ceType := jxStringAt fields "type",
             source := jxStringAt fields "source",
             id := jxStringAt fields "id",
             subject := jxStringAt fields "subject",
             time := jxStringAt fields "time",
             data := Jx.lookupField fields "data" }
    | _ => none

/-- Modelled from the spec: `shouldConvertCloudEventToBackgroundRequest` —
"triggered when the request *is* a well-formed CloudEvent (must have
non-empty `specversion`, `type`, `source`, `id` in `ce-*` headers or
structured body) but the target function expects the legacy event shape";
per the repository's tests a CloudEvent type with no background
equivalent also answers `false`. -/
def shouldConvertCloudEventToBackgroundRequest (r : Request) : Bool :=
  match getCEAttrs r with
  | none => false
  | some a =>
    a.specversion ≠ "" ∧ a.ceType ≠ "" ∧ a.source ≠ "" ∧ a.id ≠ "" ∧
      (typeCloudEventToBackground.lookup a.ceType).isSome

/-- `source = "//" ++ service ++ "/" ++ resource`. -/
def parseCESource (source : String) : Option (String × String) :=
  if goHasPrefix source "//" then splitFirstChar '/' (charDrop source 2)
  else none

/-- Modelled from the spec: `convertCloudEventToBackgroundRequest` — "the
inverse — … Looks up the reverse of the type table, reconstructs
`{context:{eventId,eventType,resource,timestamp}, data}`", with the
service-specific shaping the tests pin down: Pub/Sub unwraps
`data.message` (dropping its `messageId`/`publishTime` bookkeeping) and
renders the resource as a `{service, name, type}` struct, Cloud Storage
appends the subject to the resource path and renders the struct form,
Firebase-database sources have their `locations/<loc>` segment dropped
and the subject appended, Firebase Auth renames the metadata fields back,
and other services keep the raw resource string.  The body is consumed
before any failure can be detected, so the request comes back with an
empty, unparseable body on the error path. -/
def convertCloudEventToBackgroundRequest (r : Request) :
    Option String × Request :=
  let consumed := { r with body := some { raw := "", parsed := none } }
  match getCEAttrs r with
  | none => (some "request is not a CloudEvent", consumed)
  | some a =>
    match typeCloudEventToBackground.lookup a.ceType with
    | none =>
      (some ("unable to find background event equivalent type for " ++ a.ceType),
       consumed)
    | some bgType =>
      match parseCESource a.source with
      | none => (some ("unable to parse CloudEvent source " ++ a.source), consumed)
      | some (service, resourcePath) =>
        match a.data with
        | none => (some "unable to parse CloudEvent data", consumed)
        | some d0 =>
          let resourceName :=
            if service = firebaseDBCEService then
              dropLocationSegment resourcePath ++
                (if a.subject ≠ "" then "/" ++ a.subject else "")
            else if service = storageCEService then
              resourcePath ++ (if a.subject ≠ "" then "/" ++ a.subject else "")
            else resourcePath
          let resourceJx : Jx :=
            if service = pubSubCEService then
              .obj [("service", .str service), ("name", .str resourceName),
                    ("type", .str "type.googleapis.com/google.pubsub.v1.PubsubMessage")]
            else if service = storageCEService then
              .obj [("service", .str service), ("name", .str resourceName),
                    ("type", .str "storage#object")]
            else .str resourceName
          let data :=
            if service = pubSubCEService then
              match d0 with
              | .obj fields =>
                match Jx.lookupField fields "message" with
                | some (.obj mfields) =>
                  .obj (removeKey (removeKey mfields "messageId") "publishTime")
                | some m => m
                | none => d0
              | _ => d0
            else if service = firebaseAuthCEService then
              match d0 with
              | .obj fields =>
                match Jx.lookupField fields "metadata" with
                | some (.obj mfields) =>
                  let m := renameKey (renameKey mfields "createTime" "createdAt")
                    "lastSignInTime" "lastSignedInAt"
                  .obj (setAssoc fields "metadata" (.obj m))
                | _ => d0
              | _ => d0
            else d0
          let be := Jx.obj
            [("context", .obj
               [("eventId", .str a.id),
                ("timestamp", .str a.time),
                ("eventType", .str bgType),
                ("resource", resourceJx)]),
             ("data", data)]
          (none, { r with body := some { raw := jxMarshal be, parsed := some be } })
where
  findInfixSplit (pat : List Char) : List Char → Option (List Char × List Char)
    | [] => if pat.isEmpty then some ([], []) else none
    | c :: rest =>
      if pat.isPrefixOf (c :: rest) then some ([], (c :: rest).drop pat.length)
      else (findInfixSplit pat rest).map (fun ab => (c :: ab.1, ab.2))
  dropLocationSegment (p : String) : String :=
    match findInfixSplit "/locations/".data p.data with
    | some (pre, post) =>
      match splitFirstChar '/' (String.mk post) with
      | some (_, rest) => String.mk pre ++ "/" ++ rest
      | none => String.mk pre
    | none => p

/-! ## Event-kind request handling (`funcframework/framework.go`) -/

/-- `runBackgroundEvent`: re-encode the data payload (`encodeData` appends
a newline; marshalling a decoded JSON value cannot fail, so the encode
error branch is unreachable) and run the user function with the metadata
context. -/
def runBackgroundEvent (st : HTTPState) (stack : String) (data : Jx)
    (fn : EventFn α) : HTTPState × Bool :=
  runUserFunctionWithContext st stack (jxMarshal data ++ "\n") fn

/-- `handleEventFunction`: a body-read failure or a `getBackgroundEvent`
error is a 400/`crash`; a recognized background event runs with the
metadata context; anything else treats the raw body as the JSON-encoded
argument. -/
def handleEventFunction (st : HTTPState) (stack : String) (r : Request)
    (fn : EventFn α) : HTTPState × Bool :=
  match readHTTPRequestBody r with
  | .error e => (writeHTTPErrorResponse st 400 crashStatus e, false)
  | .ok body =>
    match getBackgroundEvent body r.path with
    | .error e =>
      (writeHTTPErrorResponse st 400 crashStatus
        ("Error: " ++ e ++ ", parsing background event: " ++ body.raw), false)
    | .ok (some md, some data) =>
      let _ := md
      runBackgroundEvent st stack data fn
    | .ok _ => runUserFunctionWithContext st stack body.raw fn

/-- The request handler installed by `wrapEventFunction` (after
`validateEventFunction` succeeded): when the request is a CloudEvent that
should be served as a background event, convert it first — writing a
400/`crash` response if the conversion fails, and then (the source has no
`return` on that branch) falling through to `handleEventFunction` on the
same request regardless. -/
def wrapEventFunctionHandler (fn : EventFn α) (stack : String) (r : Request)
    (st : HTTPState) : HTTPState × Bool :=
  let (st, r) :=
    if shouldConvertCloudEventToBackgroundRequest r then
      match convertCloudEventToBackgroundRequest r with
      | (some e, r') =>
        (writeHTTPErrorResponse st 400 crashStatus
          ("error converting CloudEvent to Background Event: " ++ e), r')
      | (none, r') => (st, r')
    else (st, r)
  handleEventFunction st stack r fn

end FFGo

namespace FFGo

/-! # Theorems -/

/-- **C1.** For every registry and every non-empty name: once a
registration call of any kind has stored a function under that name, a
later registration call of any kind whose (post-option) name is the same
returns the duplicate-name error, leaves the registry unchanged, and
`GetRegisteredFunction` still returns the originally stored function with
all its fields (name, path, callbacks) intact. -/
theorem registry_duplicate_registration_rejected
    (r : Registry) (n : String) (f : RegisteredFunction) (k : FnKind)
    (fnId : Nat) (opts : List RegOption)
    (hn : n ≠ "")
    (hstored : r.getRegisteredFunction n = some f)
    (hname : (opts.foldl applyRegOption (mkKindFunction k fnId)).Name = n) :
    (r.registerKind k fnId opts).1 =
      some ("function name already registered: \x22" ++ n ++ "\x22") ∧
    (r.registerKind k fnId opts).2 = r ∧
    (r.registerKind k fnId opts).2.getRegisteredFunction n = some f := by
  have hlookup : (r.functions.lookup n).isSome = true := by
    unfold Registry.getRegisteredFunction at hstored
    rw [hstored]
    rfl
  have hmain : (r.registerKind k fnId opts).1 =
      some ("function name already registered: \x22" ++ n ++ "\x22") ∧
      (r.registerKind k fnId opts).2 = r := by
    unfold Registry.registerKind Registry.register
    simp only [hname, hlookup, hn, if_true, if_false]
    simp [hn]
  exact ⟨hmain.1, hmain.2, by rw [hmain.2]; exact hstored⟩

def c1Registry : Registry :=
  (Registry.new.registerKind .http 7 [.withName "greet"]).2

def c1Stored : RegisteredFunction :=
  { Name := "greet", Path := "/greet", CloudEventFn := none, HTTPFn := some 7,
    EventFn := none, TypedFn := none }

/-- Witness for C1 at a concrete registry: register an HTTP function named
`greet`, then watch a typed registration under the same name fail without
disturbing the stored entry. -/
theorem registry_duplicate_registration_rejected_witness :
    (("greet" : String) ≠ "" ∧
     c1Registry.getRegisteredFunction "greet" = some c1Stored) ∧
    ((c1Registry.registerKind .typed 9 [.withName "greet"]).1 =
      some ("function name already registered: \x22" ++ "greet" ++ "\x22") ∧
     (c1Registry.registerKind .typed 9 [.withName "greet"]).2 = c1Registry ∧
     (c1Registry.registerKind .typed 9 [.withName "greet"]).2.getRegisteredFunction
       "greet" = some c1Stored) :=
  ⟨⟨by decide, by decide⟩,
   registry_duplicate_registration_rejected c1Registry "greet" c1Stored .typed 9
     [.withName "greet"] (by decide) (by decide) (by decide)⟩

end FFGo

namespace FFGo

/-- **C7.** `splitResource` splits the storage example into resource and
subject with no error; a service without a configured pattern passes the
resource through unchanged with an empty subject and no error; a service
with a configured pattern whose regexp does not match the resource yields
a non-nil error. -/
theorem splitResource_behavior :
    (splitResource storageCEService "projects/_/buckets/b/objects/a/b.txt" =
      ("projects/_/buckets/b", "objects/a/b.txt", none)) ∧
    (∀ service resource, ceServiceToResourceRe.lookup service = none →
      splitResource service resource = (resource, "", none)) ∧
    (∀ service re resource, ceServiceToResourceRe.lookup service = some re →
      re resource = none →
      splitResource service resource =
        (resource, "", some "resource regexp did not match")) := by
  refine ⟨by decide, ?_, ?_⟩
  · intro service resource hl
    unfold splitResource
    rw [hl]
  · intro service re resource hl hm
    unfold splitResource
    rw [hl]
    dsimp only
    rw [hm]

/-- Witness for C7's quantified parts: `pubsub.googleapis.com` has no
configured pattern; the storage pattern does not match `"nonsense"`. -/
theorem splitResource_behavior_witness :
    splitResource pubSubCEService "whatever" = ("whatever", "", none) ∧
    splitResource storageCEService "nonsense" =
      ("nonsense", "", some "resource regexp did not match") :=
  ⟨(splitResource_behavior.2.1 pubSubCEService "whatever" (by rfl)),
   (splitResource_behavior.2.2 storageCEService storageResourceMatch "nonsense"
     (by rfl) (by rfl))⟩

/-- The typed-function request of C5's failing input: a well-formed JSON
body for the declared input struct. -/
def c5Req : Request :=
  { path := "/", ceIdHeader := "", contentTypeHeader := "",
    ceSpecVersionHeader := "", ceTypeHeader := "", ceSourceHeader := "",
    body := some { raw := "\x7b\"id\":1,\"name\":\"a\"\x7d",
                   parsed := some (.obj [("id", .num "1"), ("name", .str "a")]) } }

/-- A typed function `func(T) error` that decodes its argument fine and
returns a nil error: its single reflected return value is a nil interface
(`dyn = none`). -/
def c5Fn : TypedFn Unit :=
  { decode := fun _ => .ok (), call := fun _ => .rets [{ dyn := none }] }

/-- **C5** (the code's actual behavior at the failing input): a typed
function whose only return value is a nil error does *not* produce an
empty 200 — `handleTypedReturn` calls `AssignableTo` on the nil
`reflect.Type` of the nil first return value, panics, and the recovered
panic yields a 500/`crash` response with the generic panic body. -/
theorem typed_nil_error_return_crashes :
    (wrapTypedFunctionHandler c5Fn "STACK" c5Req freshHTTPState).1.finalStatusCode = 500 ∧
    (wrapTypedFunctionHandler c5Fn "STACK" c5Req freshHTTPState).1.w.statusHeader =
      some crashStatus ∧
    (wrapTypedFunctionHandler c5Fn "STACK" c5Req freshHTTPState).1.w.body =
      newlineTerminate (panicGenericMsg "user function execution") ∧
    (wrapTypedFunctionHandler c5Fn "STACK" c5Req freshHTTPState).2 = true := by
  decide

/-- An event-kind user function for C8 (its behavior is never reached on
the failing input). -/
def c8Fn : EventFn Unit :=
  { decode := fun _ => .ok (), call := fun _ => .rets none }

/-- C8's failing input: a binary CloudEvent (all four `ce-*` headers set,
with a background-convertible type) whose body is not valid JSON, so the
CloudEvent→background conversion fails. -/
def c8Req : Request :=
  { path := "/", ceIdHeader := "i", contentTypeHeader := "application/json",
    ceSpecVersionHeader := "1.0",
    ceTypeHeader := "google.cloud.pubsub.topic.v1.messagePublished",
    ceSourceHeader := "//pubsub.googleapis.com/projects/P/topics/T",
    body := some { raw := "not-json", parsed := none } }

/-- **C8** (the code's actual behavior at the failing input): when the
CloudEvent→background conversion fails, the handler writes the
400/`crash` response but — having no `return` on that branch — still runs
`handleEventFunction`, which attempts a second response write
(`WriteHeader` is called twice); the handling is not terminal at the
error response.  The user function is still not invoked here only because
the consumed body fails to parse downstream as well. -/
theorem event_conversion_failure_not_terminal :
    shouldConvertCloudEventToBackgroundRequest c8Req = true ∧
    (convertCloudEventToBackgroundRequest c8Req).1.isSome = true ∧
    (wrapEventFunctionHandler c8Fn "STACK" c8Req freshHTTPState).1.w.writeHeaderCalls = 2 ∧
    (wrapEventFunctionHandler c8Fn "STACK" c8Req freshHTTPState).1.w.statusCode =
      some 400 ∧
    (wrapEventFunctionHandler c8Fn "STACK" c8Req freshHTTPState).1.w.statusHeader =
      some crashStatus ∧
    (wrapEventFunctionHandler c8Fn "STACK" c8Req freshHTTPState).2 = false := by
  decide

end FFGo

namespace FFGo

/-! ### Shared facts about the response writer -/

theorem hasSuffixNewline_append_newline (s : String) :
    hasSuffixNewline (s ++ "\n") = true := by
  have h : (s ++ "\n").data = s.data ++ ['\n'] := rfl
  simp [hasSuffixNewline, h]

theorem newlineTerminate_hasSuffix (s : String) :
    hasSuffixNewline (newlineTerminate s) = true := by
  unfold newlineTerminate
  split
  · assumption
  · exact hasSuffixNewline_append_newline s

theorem newlineTerminate_idem (s : String) :
    newlineTerminate (newlineTerminate s) = newlineTerminate s := by
  by_cases h0 : hasSuffixNewline s = true
  · simp [newlineTerminate, h0]
  · simp [newlineTerminate, h0, hasSuffixNewline_append_newline]

theorem fmtFunctionError_hasSuffix (e : String) :
    hasSuffixNewline (fmtFunctionError e) = true :=
  newlineTerminate_hasSuffix _

/-- `writeHTTPErrorResponse` on the fresh per-request state: status header
set, status code written once, message (newline-terminated) on both the
body and stderr. -/
theorem writeHTTPErrorResponse_fresh (code : Nat) (status msg : String) :
    writeHTTPErrorResponse freshHTTPState code status msg =
      { w := { statusHeader := some status, statusCode := some code,
               writeHeaderCalls := 1, body := newlineTerminate msg },
        stderr := newlineTerminate msg } := by
  unfold writeHTTPErrorResponse freshHTTPState ResponseWriter.headersSent
  simp

/-- **C2.** For event- and typed-kind functions, a request body that does
not decode into the function's declared argument type produces a
400/`crash` response naming the decode failure (for typed functions the
body carries `while converting input data`), and the user function is not
invoked; likewise for an event-kind request whose body fails
`getBackgroundEvent` parsing. -/
theorem decode_failure_crash_response
    {α β : Type} (stack : String) (r : Request) (body : GoBody)
    (tfn : TypedFn α) (efn : EventFn β) (e : String) (data : String) :
    (r.body = some body → tfn.decode body.raw = .error e →
      (wrapTypedFunctionHandler tfn stack r freshHTTPState).1.finalStatusCode = 400 ∧
      (wrapTypedFunctionHandler tfn stack r freshHTTPState).1.w.statusHeader =
        some crashStatus ∧
      (wrapTypedFunctionHandler tfn stack r freshHTTPState).1.w.body =
        newlineTerminate ("Error while converting input data. " ++ e) ∧
      (wrapTypedFunctionHandler tfn stack r freshHTTPState).2 = false) ∧
    (efn.decode data = .error e →
      (runUserFunctionWithContext freshHTTPState stack data efn).1.finalStatusCode = 400 ∧
      (runUserFunctionWithContext freshHTTPState stack data efn).1.w.statusHeader =
        some crashStatus ∧
      (runUserFunctionWithContext freshHTTPState stack data efn).1.w.body =
        newlineTerminate ("Error: " ++ e ++ ", while converting event data: " ++ data) ∧
      (runUserFunctionWithContext freshHTTPState stack data efn).2 = false) ∧
    (r.body = some body → getBackgroundEvent body r.path = .error e →
      (handleEventFunction freshHTTPState stack r efn).1.finalStatusCode = 400 ∧
      (handleEventFunction freshHTTPState stack r efn).1.w.statusHeader =
        some crashStatus ∧
      (handleEventFunction freshHTTPState stack r efn).1.w.body =
        newlineTerminate ("Error: " ++ e ++ ", parsing background event: " ++ body.raw) ∧
      (handleEventFunction freshHTTPState stack r efn).2 = false) := by
  refine ⟨?_, ?_, ?_⟩
  · intro hb hd
    simp only [wrapTypedFunctionHandler, readHTTPRequestBody, hb, hd,
      writeHTTPErrorResponse_fresh]
    simp [HTTPState.finalStatusCode]
  · intro hd
    simp only [runUserFunctionWithContext, hd, writeHTTPErrorResponse_fresh]
    simp [HTTPState.finalStatusCode]
  · intro hb hg
    simp only [handleEventFunction, readHTTPRequestBody, hb, hg,
      writeHTTPErrorResponse_fresh]
    simp [HTTPState.finalStatusCode]

def c2TypedFn : TypedFn Unit :=
  { decode := fun _ => .error "json: cannot unmarshal number into Go struct field",
    call := fun _ => .rets [] }

def c2EventFn : EventFn Unit :=
  { decode := fun _ => .error "json: cannot unmarshal string into Go value",
    call := fun _ => .rets none }

def c2Req : Request :=
  { path := "/", ceIdHeader := "", contentTypeHeader := "",
    ceSpecVersionHeader := "", ceTypeHeader := "", ceSourceHeader := "",
    body := some { raw := "\x7b\"id\":12345,\"name\":5\x7d",
                   parsed := some (.obj [("id", .num "12345"), ("name", .num "5")]) } }

/-- Witness for C2: posting `{"id":12345,"name":5}` to a typed function
whose input decode rejects it yields the 400/`crash` response carrying
`while converting input data` without invoking the function, and an
event-kind decode failure likewise. -/
theorem decode_failure_crash_response_witness :
    ((wrapTypedFunctionHandler c2TypedFn "STACK" c2Req freshHTTPState).1.finalStatusCode = 400 ∧
     (wrapTypedFunctionHandler c2TypedFn "STACK" c2Req freshHTTPState).1.w.statusHeader =
       some crashStatus ∧
     (wrapTypedFunctionHandler c2TypedFn "STACK" c2Req freshHTTPState).1.w.body =
       newlineTerminate ("Error while converting input data. " ++
         "json: cannot unmarshal number into Go struct field") ∧
     (wrapTypedFunctionHandler c2TypedFn "STACK" c2Req freshHTTPState).2 = false) ∧
    ((runUserFunctionWithContext freshHTTPState "STACK" "\x22boom\x22" c2EventFn).1.finalStatusCode = 400 ∧
     (runUserFunctionWithContext freshHTTPState "STACK" "\x22boom\x22" c2EventFn).1.w.statusHeader =
       some crashStatus ∧
     (runUserFunctionWithContext freshHTTPState "STACK" "\x22boom\x22" c2EventFn).1.w.body =
       newlineTerminate ("Error: " ++ "json: cannot unmarshal string into Go value" ++
         ", while converting event data: " ++ "\x22boom\x22") ∧
     (runUserFunctionWithContext freshHTTPState "STACK" "\x22boom\x22" c2EventFn).2 = false) :=
  ⟨(decode_failure_crash_response "STACK" c2Req
      { raw := "\x7b\"id\":12345,\"name\":5\x7d",
        parsed := some (.obj [("id", .num "12345"), ("name", .num "5")]) }
      c2TypedFn c2EventFn "json: cannot unmarshal number into Go struct field"
      "").1 (by rfl) (by rfl),
   (decode_failure_crash_response "STACK" c2Req
      { raw := "\x7b\"id\":12345,\"name\":5\x7d",
        parsed := some (.obj [("id", .num "12345"), ("name", .num "5")]) }
      c2TypedFn c2EventFn "json: cannot unmarshal string into Go value"
      "\x22boom\x22").2.1 (by rfl)⟩

end FFGo

namespace FFGo

/-- **C3.** When an event- or typed-kind function's invocation returns a
non-nil error, the adapter responds 500 with status header `error`, and
the formatted error text — newline-terminated — is written both to the
error stream and to the response body. -/
theorem user_error_reported_500_error
    {α β : Type} (stack : String) (r : Request) (body : GoBody)
    (tfn : TypedFn α) (a : α) (vals : List GoRetVal) (v : GoRetVal) (d : GoRetDyn)
    (efn : EventFn β) (b : β) (data : String) (e : String) :
    (efn.decode data = .ok b → efn.call b = .rets (some e) →
      (runUserFunctionWithContext freshHTTPState stack data efn).1.finalStatusCode = 500 ∧
      (runUserFunctionWithContext freshHTTPState stack data efn).1.w.statusHeader =
        some errorStatus ∧
      (runUserFunctionWithContext freshHTTPState stack data efn).1.w.body =
        fmtFunctionError e ∧
      (runUserFunctionWithContext freshHTTPState stack data efn).1.stderr =
        fmtFunctionError e ∧
      hasSuffixNewline (fmtFunctionError e) = true) ∧
    (r.body = some body → tfn.decode body.raw = .ok a → tfn.call a = .rets vals →
      vals.getLast? = some v → v.dyn = some d → d.assignableToError = true →
      (wrapTypedFunctionHandler tfn stack r freshHTTPState).1.finalStatusCode = 500 ∧
      (wrapTypedFunctionHandler tfn stack r freshHTTPState).1.w.statusHeader =
        some errorStatus ∧
      (wrapTypedFunctionHandler tfn stack r freshHTTPState).1.w.body =
        fmtFunctionError d.errText ∧
      (wrapTypedFunctionHandler tfn stack r freshHTTPState).1.stderr =
        fmtFunctionError d.errText ∧
      hasSuffixNewline (fmtFunctionError d.errText) = true) := by
  constructor
  · intro hd hc
    simp only [runUserFunctionWithContext, hd, hc, writeHTTPErrorResponse_fresh]
    refine ⟨by simp [HTTPState.finalStatusCode], by simp, ?_, ?_,
      fmtFunctionError_hasSuffix e⟩
    · exact newlineTerminate_idem _
    · exact newlineTerminate_idem _
  · intro hb hd hc hlast hdyn herr
    cases vals with
    | nil => simp at hlast
    | cons v0 rest =>
      have hv : (v0 :: rest).getLast (List.cons_ne_nil v0 rest) = v := by
        have hg := List.getLast?_eq_getLast (v0 :: rest) (List.cons_ne_nil v0 rest)
        rw [hg] at hlast
        exact Option.some.inj hlast
      simp only [wrapTypedFunctionHandler, readHTTPRequestBody, hb, hd, hc,
        handleTypedReturn, hv, hdyn, herr, if_true, writeHTTPErrorResponse_fresh]
      refine ⟨by simp [HTTPState.finalStatusCode], by simp, ?_, ?_,
        fmtFunctionError_hasSuffix d.errText⟩
      · exact newlineTerminate_idem _
      · exact newlineTerminate_idem _

def c3ErrDyn : GoRetDyn :=
  { assignableToError := true, errText := "Some error message", jsonEnc := "null" }

def c3ErrVal : GoRetVal := { dyn := some c3ErrDyn }

def c3EventFn : EventFn Unit :=
  { decode := fun _ => .ok (), call := fun _ => .rets (some "Some error message") }

def c3TypedFn : TypedFn Unit :=
  { decode := fun _ => .ok (), call := fun _ => .rets [c3ErrVal] }

def c3Body : GoBody :=
  { raw := "\x7b\"id\":1,\"name\":\"a\"\x7d",
    parsed := some (.obj [("id", .num "1"), ("name", .str "a")]) }

def c3Req : Request :=
  { path := "/", ceIdHeader := "", contentTypeHeader := "",
    ceSpecVersionHeader := "", ceTypeHeader := "", ceSourceHeader := "",
    body := some c3Body }

/-- Witness for C3 with concrete event- and typed-kind functions returning
the error `Some error message`. -/
theorem user_error_reported_500_error_witness :
    ((runUserFunctionWithContext freshHTTPState "STACK" "7" c3EventFn).1.finalStatusCode = 500 ∧
     (runUserFunctionWithContext freshHTTPState "STACK" "7" c3EventFn).1.w.statusHeader =
       some errorStatus ∧
     (runUserFunctionWithContext freshHTTPState "STACK" "7" c3EventFn).1.w.body =
       fmtFunctionError "Some error message" ∧
     (runUserFunctionWithContext freshHTTPState "STACK" "7" c3EventFn).1.stderr =
       fmtFunctionError "Some error message" ∧
     hasSuffixNewline (fmtFunctionError "Some error message") = true) ∧
    ((wrapTypedFunctionHandler c3TypedFn "STACK" c3Req freshHTTPState).1.finalStatusCode = 500 ∧
     (wrapTypedFunctionHandler c3TypedFn "STACK" c3Req freshHTTPState).1.w.statusHeader =
       some errorStatus ∧
     (wrapTypedFunctionHandler c3TypedFn "STACK" c3Req freshHTTPState).1.w.body =
       fmtFunctionError c3ErrDyn.errText ∧
     (wrapTypedFunctionHandler c3TypedFn "STACK" c3Req freshHTTPState).1.stderr =
       fmtFunctionError c3ErrDyn.errText ∧
     hasSuffixNewline (fmtFunctionError c3ErrDyn.errText) = true) :=
  ⟨(user_error_reported_500_error "STACK" c3Req c3Body c3TypedFn () [c3ErrVal]
      c3ErrVal c3ErrDyn c3EventFn () "7" "Some error message").1 (by rfl) (by rfl),
   (user_error_reported_500_error "STACK" c3Req c3Body c3TypedFn () [c3ErrVal]
      c3ErrVal c3ErrDyn c3EventFn () "7" "Some error message").2 (by rfl) (by rfl)
      (by rfl) (by rfl) (by rfl) (by rfl)⟩

end FFGo

namespace FFGo

/-- An HTTP-kind user function that writes a 200 status and a partial body
before panicking. -/
def c4PreWriteFn : HTTPFnModel :=
  { act := fun st =>
      let w' : ResponseWriter :=
        { statusHeader := st.w.statusHeader,
          statusCode := some 200,
          writeHeaderCalls := 1,
          body := st.w.body ++ "partial" }
      ({ st with w := w' }, some "boom") }

/-- **C4, as stated, is false**: a CloudEvent-kind user function's panic
is re-raised past the adapter (`recoverPanic(nil, …, true)` writes no
response and panics again), and an HTTP-kind function that has written its
response before panicking keeps its own status code — the client does not
see 500/`crash`. -/
theorem panic_recovery_counterexample :
    (logErrFn (.panics "boom") "STACK" "").2 = .propagatedPanic "boom" ∧
    (wrapHTTPFunctionHandler c4PreWriteFn "STACK" freshHTTPState).finalStatusCode = 200 ∧
    (wrapHTTPFunctionHandler c4PreWriteFn "STACK" freshHTTPState).w.statusHeader ≠
      some crashStatus := by
  refine ⟨rfl, by decide, by decide⟩

/-- **C4 (amended).** A panic in an event-, typed-, or (if it has written
nothing yet) HTTP-kind user function is recovered by the adapter into a
500 response with status header `crash` whose body is exactly the generic
templated message — independent of the panic value and the stack trace,
which reach only the error stream; a CloudEvent-kind panic is logged and
then re-raised past the adapter instead of being turned into a
response. -/
theorem panic_recovery_by_kind
    {α β : Type} (stack v : String) (r : Request) (body : GoBody)
    (efn : EventFn β) (b : β) (data : String)
    (tfn : TypedFn α) (a : α) (hfn : HTTPFnModel) (stderr0 : String) :
    (efn.decode data = .ok b → efn.call b = .panics v →
      (runUserFunctionWithContext freshHTTPState stack data efn).1.finalStatusCode = 500 ∧
      (runUserFunctionWithContext freshHTTPState stack data efn).1.w.statusHeader =
        some crashStatus ∧
      (runUserFunctionWithContext freshHTTPState stack data efn).1.w.body =
        newlineTerminate (panicGenericMsg "user function execution")) ∧
    (r.body = some body → tfn.decode body.raw = .ok a → tfn.call a = .panics v →
      (wrapTypedFunctionHandler tfn stack r freshHTTPState).1.finalStatusCode = 500 ∧
      (wrapTypedFunctionHandler tfn stack r freshHTTPState).1.w.statusHeader =
        some crashStatus ∧
      (wrapTypedFunctionHandler tfn stack r freshHTTPState).1.w.body =
        newlineTerminate (panicGenericMsg "user function execution")) ∧
    (hfn.act freshHTTPState = (freshHTTPState, some v) →
      (wrapHTTPFunctionHandler hfn stack freshHTTPState).finalStatusCode = 500 ∧
      (wrapHTTPFunctionHandler hfn stack freshHTTPState).w.statusHeader =
        some crashStatus ∧
      (wrapHTTPFunctionHandler hfn stack freshHTTPState).w.body =
        newlineTerminate (panicGenericMsg "user function execution")) ∧
    ((logErrFn (.panics v) stack stderr0).2 = .propagatedPanic v) := by
  refine ⟨?_, ?_, ?_, rfl⟩
  · intro hd hc
    simp only [runUserFunctionWithContext, hd, hc, recoverPanicState,
      writeHTTPErrorResponse]
    simp [HTTPState.finalStatusCode, ResponseWriter.headersSent, freshHTTPState]
  · intro hb hd hc
    simp only [wrapTypedFunctionHandler, readHTTPRequestBody, hb, hd, hc,
      recoverPanicState, writeHTTPErrorResponse]
    simp [HTTPState.finalStatusCode, ResponseWriter.headersSent, freshHTTPState]
  · intro hact
    simp only [wrapHTTPFunctionHandler, hact, recoverPanicState,
      writeHTTPErrorResponse]
    simp [HTTPState.finalStatusCode, ResponseWriter.headersSent, freshHTTPState]

def c4EventFn : EventFn Unit :=
  { decode := fun _ => .ok (), call := fun _ => .panics "boom" }

def c4TypedFn : TypedFn Unit :=
  { decode := fun _ => .ok (), call := fun _ => .panics "boom" }

def c4HTTPFn : HTTPFnModel := { act := fun st => (st, some "boom") }

/-- Witness for the amended C4 with concrete panicking functions of each
kind. -/
theorem panic_recovery_by_kind_witness :
    ((runUserFunctionWithContext freshHTTPState "STACK" "7" c4EventFn).1.finalStatusCode = 500 ∧
     (runUserFunctionWithContext freshHTTPState "STACK" "7" c4EventFn).1.w.statusHeader =
       some crashStatus ∧
     (runUserFunctionWithContext freshHTTPState "STACK" "7" c4EventFn).1.w.body =
       newlineTerminate (panicGenericMsg "user function execution")) ∧
    ((wrapTypedFunctionHandler c4TypedFn "STACK" c3Req freshHTTPState).1.finalStatusCode = 500 ∧
     (wrapTypedFunctionHandler c4TypedFn "STACK" c3Req freshHTTPState).1.w.statusHeader =
       some crashStatus ∧
     (wrapTypedFunctionHandler c4TypedFn "STACK" c3Req freshHTTPState).1.w.body =
       newlineTerminate (panicGenericMsg "user function execution")) ∧
    ((wrapHTTPFunctionHandler c4HTTPFn "STACK" freshHTTPState).finalStatusCode = 500 ∧
     (wrapHTTPFunctionHandler c4HTTPFn "STACK" freshHTTPState).w.statusHeader =
       some crashStatus ∧
     (wrapHTTPFunctionHandler c4HTTPFn "STACK" freshHTTPState).w.body =
       newlineTerminate (panicGenericMsg "user function execution")) ∧
    ((logErrFn (.panics "boom") "STACK" "pre").2 = .propagatedPanic "boom") := by
  have h := panic_recovery_by_kind "STACK" "boom" c3Req c3Body c4EventFn () "7"
    c4TypedFn () c4HTTPFn "pre"
  exact ⟨h.1 (by rfl) (by rfl), h.2.1 (by rfl) (by rfl) (by rfl),
    h.2.2.1 (by rfl), h.2.2.2⟩

end FFGo

namespace FFGo

/-- A legacy Pub/Sub push body: well-formed JSON with no top-level `data`
member. -/
def c6LegacyBody : GoBody :=
  { raw := "\x7b\"subscription\":\"s\",\"message\":\x7b\"messageId\":\"m1\"\x7d\x7d",
    parsed := some (.obj
      [("subscription", .str "s"),
       ("message", .obj [("messageId", .str "m1")])]) }

/-- A well-formed JSON body whose `context` member is a number, so the
outer unmarshal fails with a type error. -/
def c6CtxNumBody : GoBody :=
  { raw := "\x7b\"context\":5\x7d", parsed := some (.obj [("context", .num "5")]) }

/-- The event id `getBackgroundEvent` classifies `c6LegacyBody` under. -/
def c6LegacyEventID : Option String :=
  match getBackgroundEvent c6LegacyBody "/" with
  | .ok (some md, some _) => some md.EventID
  | _ => none

/-- **C6, as stated, is false** at two explicit well-formed JSON bodies:
the legacy Pub/Sub push body has no top-level `data` member yet is
classified as a background event (metadata and data both non-nil, event id
taken from the message), and `{"context":5}` is well-formed JSON yet makes
`getBackgroundEvent` return a non-nil error (the unmarshal into the event
union fails on the number). -/
theorem getBackgroundEvent_claim_counterexample :
    c6LegacyEventID = some "m1" ∧
    (getBackgroundEvent c6CtxNumBody "/").isOk = false := by
  decide

/-- **C6 (amended).** `getBackgroundEvent` classification: a body that is
not well-formed JSON is a hard error; for a well-formed body whose
unmarshal into the event union succeeds — if neither the background nor
the legacy Pub/Sub shape matched, or the matched background event has no
data payload, the result is `(nil, nil, nil)`; a legacy Pub/Sub match is
synthesized into a background event (no error even with no top-level
`data` member); with data present but no `context` wrapper, the whole
body is unmarshalled into `Metadata`, an empty `EventID` yielding
`(nil, nil, nil)` and an unmarshal failure yielding an error.  An error
can arise only from the syntax error or from one of the two struct
unmarshals — but the latter do fail on some well-formed bodies. -/
theorem getBackgroundEvent_classification (raw path : String) (j : Jx) :
    ((getBackgroundEvent { raw := raw, parsed := none } path).isOk = false) ∧
    (∀ pe, unmarshalPossibleEvents j = .ok pe →
      ((pe.backgroundEvent = none → pe.legacyEvent = none →
        getBackgroundEvent { raw := raw, parsed := some j } path = .ok (none, none)) ∧
       (∀ le, pe.backgroundEvent = none → pe.legacyEvent = some le →
        getBackgroundEvent { raw := raw, parsed := some j } path =
          .ok ((convertLegacyEventToBackgroundEvent le (topicOrEmpty path)).Metadata,
               (convertLegacyEventToBackgroundEvent le (topicOrEmpty path)).Data)) ∧
       (∀ be, pe.backgroundEvent = some be → be.Data = none →
        getBackgroundEvent { raw := raw, parsed := some j } path = .ok (none, none)) ∧
       (∀ be d m, pe.backgroundEvent = some be → be.Data = some d →
        be.Metadata = none → unmarshalMetadataInto zeroMetadata j = .ok m →
        m.EventID = "" →
        getBackgroundEvent { raw := raw, parsed := some j } path = .ok (none, none)) ∧
       (∀ be d e, pe.backgroundEvent = some be → be.Data = some d →
        be.Metadata = none → unmarshalMetadataInto zeroMetadata j = .error e →
        getBackgroundEvent { raw := raw, parsed := some j } path = .error e))) ∧
    ((getBackgroundEvent { raw := raw, parsed := some j } path).isOk = false →
      (unmarshalPossibleEvents j).isOk = false ∨
      (unmarshalMetadataInto zeroMetadata j).isOk = false) := by
  refine ⟨by rfl, ?_, ?_⟩
  · intro pe hpe
    refine ⟨?_, ?_, ?_, ?_, ?_⟩
    · intro hbe hle
      simp only [getBackgroundEvent, hpe, hbe, hle]
    · intro le hbe hle
      simp only [getBackgroundEvent, hpe, hbe, hle, convertLegacyEventToBackgroundEvent]
    · intro be hbe hdata
      simp only [getBackgroundEvent, hpe, hbe]
      rw [hdata]
    · intro be d m hbe hdata hmd hm hid
      simp only [getBackgroundEvent, hpe, hbe]
      rw [hdata, hmd, hm]
      simp [hid]
    · intro be d e hbe hdata hmd hm
      simp only [getBackgroundEvent, hpe, hbe]
      rw [hdata, hmd, hm]
  · intro hfail
    unfold getBackgroundEvent at hfail
    dsimp only at hfail
    cases hpe : unmarshalPossibleEvents j with
    | error e => left; rfl
    | ok pe =>
      right
      rw [hpe] at hfail
      dsimp only at hfail
      cases hbe : pe.backgroundEvent with
      | none =>
        cases hle : pe.legacyEvent with
        | none => rw [hbe, hle] at hfail; simp [Except.isOk, Except.toBool] at hfail
        | some le =>
          rw [hbe, hle] at hfail
          simp [convertLegacyEventToBackgroundEvent, Except.isOk, Except.toBool] at hfail
      | some be =>
        rw [hbe] at hfail
        dsimp only at hfail
        cases hdata : be.Data with
        | none => rw [hdata] at hfail; simp [Except.isOk, Except.toBool] at hfail
        | some d =>
          rw [hdata] at hfail
          dsimp only at hfail
          cases hmd : be.Metadata with
          | some md => rw [hmd] at hfail; simp [Except.isOk, Except.toBool] at hfail
          | none =>
            rw [hmd] at hfail
            dsimp only at hfail
            cases hm : unmarshalMetadataInto zeroMetadata j with
            | error e => rfl
            | ok m =>
              rw [hm] at hfail
              dsimp only at hfail
              by_cases hid : m.EventID = ""
              · rw [if_pos hid] at hfail; simp [Except.isOk, Except.toBool] at hfail
              · rw [if_neg hid] at hfail; simp [Except.isOk, Except.toBool] at hfail

/-- Witness for the amended C6: `{"random":"x"}` (well-formed, no `data`
member, matching neither event shape) classifies as "not a background
event" with no error, and a malformed body is an error. -/
theorem getBackgroundEvent_classification_witness :
    getBackgroundEvent
      { raw := "\x7b\"random\":\"x\"\x7d",
        parsed := some (.obj [("random", .str "x")]) } "/" = .ok (none, none) ∧
    (getBackgroundEvent { raw := "not-json", parsed := none } "/").isOk = false :=
  ⟨(((getBackgroundEvent_classification "\x7b\"random\":\"x\"\x7d" "/"
        (.obj [("random", .str "x")])).2.1
      { legacyEvent := none, backgroundEvent := none } (by rfl)).1 (by rfl) (by rfl)),
   (getBackgroundEvent_classification "not-json" "/"
      (.obj [("random", .str "x")])).1⟩

end FFGo

namespace FFGo

/-! ### The C9 round trip: background → CloudEvent → background -/

/-- The claimed background event
`{eventId:"123", eventType:"google.pubsub.topic.publish",
resource:{name:"projects/P/topics/T", service:"pubsub.googleapis.com"},
data:{…}}`. -/
def c9Body : Jx :=
  .obj [("context", .obj
          [("eventId", .str "123"),
           ("eventType", .str "google.pubsub.topic.publish"),
           ("resource", .obj [("name", .str "projects/P/topics/T"),
                              ("service", .str "pubsub.googleapis.com")])]),
        ("data", .obj [("foo", .str "bar")])]

def c9Req : Request :=
  { path := "/", ceIdHeader := "", contentTypeHeader := "",
    ceSpecVersionHeader := "", ceTypeHeader := "", ceSourceHeader := "",
    body := some { raw := jxMarshal c9Body, parsed := some c9Body } }

def CreateCEResult.isOkB : CreateCEResult → Bool
  | .ok _ => true
  | _ => false

def c9Fwd : CreateCEResult := createCloudEventRequest c9Req

/-- The request after the forward conversion (the fallback arm is dead:
the first conjunct of the round-trip theorem shows the conversion
succeeds). -/
def c9FwdReq : Request :=
  match c9Fwd with
  | .ok r => r
  | _ => c9Req

def c9Back : Option String × Request := convertCloudEventToBackgroundRequest c9FwdReq

def c9BackContextField (key : String) : Option Jx :=
  match c9Back.2.body with
  | some b =>
    match b.parsed with
    | some (.obj fields) =>
      match Jx.lookupField fields "context" with
      | some (.obj cfields) => Jx.lookupField cfields key
      | _ => none
    | _ => none
  | none => none

def c9BackResourceName : Option Jx :=
  match c9BackContextField "resource" with
  | some (.obj rfields) => Jx.lookupField rfields "name"
  | _ => none

def jxAsString : Option Jx → Option String
  | some (.str s) => some s
  | _ => none

/-- **C9.** Converting the claimed Pub/Sub background event to a
CloudEvent with `createCloudEventRequest` and converting the result back
to a background event preserves `eventId`, `eventType`, and the resource
name. -/
theorem background_cloudevent_roundtrip :
    c9Fwd.isOkB = true ∧
    c9Back.1 = none ∧
    jxAsString (c9BackContextField "eventId") = some "123" ∧
    jxAsString (c9BackContextField "eventType") =
      some "google.pubsub.topic.publish" ∧
    jxAsString c9BackResourceName = some "projects/P/topics/T" := by
  decide

end FFGo

namespace FFGo

/-- Two table entries whose keys are prefix-incomparable. -/
def keyIncomparable (a b : String × String) : Prop :=
  ¬(a.1.data <+: b.1.data) ∧ ¬(b.1.data <+: a.1.data)

/-- The prefix-scan loop as a function of the matching entries: the fold
keeps the last match (or the initial value when nothing matches). -/
theorem scanService_eq_getLastD (s : String) (l : List (String × String))
    (init : String) :
    l.foldl (fun service kv => if goHasPrefix s kv.1 then kv.2 else service) init =
      ((l.filter (fun kv => goHasPrefix s kv.1)).map Prod.snd).getLastD init := by
  induction l generalizing init with
  | nil => rfl
  | cons kv rest ih =>
    simp only [List.foldl_cons, List.filter_cons]
    by_cases h : goHasPrefix s kv.1 = true
    · rw [if_pos h, if_pos h, ih, List.map_cons, List.getLastD_cons]
    · rw [if_neg h, if_neg h, ih]

/-- A pairwise prefix-incomparable entry list has at most one entry whose
key is a prefix of `s`. -/
theorem matching_filter_length_le_one (s : String) (l : List (String × String))
    (hpw : l.Pairwise keyIncomparable) :
    (l.filter (fun kv => goHasPrefix s kv.1)).length ≤ 1 := by
  match hf : l.filter (fun kv => goHasPrefix s kv.1) with
  | [] => rw [hf]; simp
  | [x] => rw [hf]; simp
  | x :: y :: rest =>
    exfalso
    have hsub : List.Sublist (x :: y :: rest) l := hf ▸ List.filter_sublist l
    have hpw' : (x :: y :: rest).Pairwise keyIncomparable := hpw.sublist hsub
    have hxy : keyIncomparable x y :=
      (List.pairwise_cons.mp hpw').1 y (List.mem_cons_self y rest)
    have hx : goHasPrefix s x.1 = true :=
      List.of_mem_filter (p := fun (kv : String × String) => goHasPrefix s kv.1)
        (hf ▸ List.mem_cons_self x (y :: rest))
    have hy : goHasPrefix s y.1 = true :=
      List.of_mem_filter (p := fun (kv : String × String) => goHasPrefix s kv.1)
        (hf ▸ List.mem_cons_of_mem x (List.mem_cons_self y rest))
    have hxp : x.1.data <+: s.data := List.isPrefixOf_iff_prefix.mp hx
    have hyp : y.1.data <+: s.data := List.isPrefixOf_iff_prefix.mp hy
    rcases List.prefix_or_prefix_of_prefix hxp hyp with h | h
    · exact hxy.1 h
    · exact hxy.2 h

/-- **C10.** The service inference in `createCloudEventRequest` is
deterministic although it scans a Go map in unspecified order: (i) no key
of `serviceBackgroundToCloudEvent` is a prefix of another key, (ii) hence
for every event type at most one key is a prefix of it, and (iii) the
no-`break` prefix-scan loop computes the same service for every iteration
order (permutation) of the table. -/
theorem service_inference_deterministic :
    serviceBackgroundToCloudEvent.Pairwise keyIncomparable ∧
    (∀ (s k₁ k₂ : String),
      k₁ ∈ serviceBackgroundToCloudEvent.map Prod.fst →
      k₂ ∈ serviceBackgroundToCloudEvent.map Prod.fst →
      k₁.data <+: s.data → k₂.data <+: s.data → k₁ = k₂) ∧
    (∀ (l : List (String × String)), l.Perm serviceBackgroundToCloudEvent →
      ∀ s, scanServiceForEventType l s =
        scanServiceForEventType serviceBackgroundToCloudEvent s) := by
  have hpw : serviceBackgroundToCloudEvent.Pairwise keyIncomparable := by
    unfold serviceBackgroundToCloudEvent keyIncomparable
    decide
  refine ⟨hpw, ?_, ?_⟩
  · intro s k₁ k₂ h₁ h₂ hp₁ hp₂
    rcases List.mem_map.mp h₁ with ⟨a, ha, hak⟩
    rcases List.mem_map.mp h₂ with ⟨b, hb, hbk⟩
    by_contra hne
    have hab : a ≠ b := by
      intro h
      exact hne (hak ▸ hbk ▸ h ▸ rfl)
    have hsymm : Symmetric keyIncomparable := by
      intro u v huv
      exact ⟨huv.2, huv.1⟩
    have hinc : keyIncomparable a b := hpw.forall hsymm ha hb hab
    rcases List.prefix_or_prefix_of_prefix (hak ▸ hp₁) (hbk ▸ hp₂) with h | h
    · exact hinc.1 h
    · exact hinc.2 h
  · intro l hperm s
    unfold scanServiceForEventType
    rw [scanService_eq_getLastD, scanService_eq_getLastD]
    have hpf : (l.filter (fun kv => goHasPrefix s kv.1)).Perm
        (serviceBackgroundToCloudEvent.filter (fun kv => goHasPrefix s kv.1)) :=
      hperm.filter _
    have hlen := matching_filter_length_le_one s serviceBackgroundToCloudEvent hpw
    match hf : serviceBackgroundToCloudEvent.filter (fun kv => goHasPrefix s kv.1) with
    | [] =>
      rw [hf] at hpf
      rw [hf, hpf.eq_nil]
    | [x] =>
      rw [hf] at hpf
      rw [hf, hpf.eq_singleton]
    | x :: y :: rest =>
      rw [hf] at hlen
      simp at hlen

/-- Witness for C10: the reversed table (a nontrivial permutation) infers
the same service for `google.pubsub.topic.publish`, and the two prefix
hypotheses of (ii) are dischargeable at `google.pubsub`. -/
theorem service_inference_deterministic_witness :
    scanServiceForEventType serviceBackgroundToCloudEvent.reverse
      "google.pubsub.topic.publish" =
      scanServiceForEventType serviceBackgroundToCloudEvent
        "google.pubsub.topic.publish" ∧
    scanServiceForEventType serviceBackgroundToCloudEvent
      "google.pubsub.topic.publish" = "pubsub.googleapis.com" ∧
    ("google.pubsub" : String) = "google.pubsub" :=
  ⟨service_inference_deterministic.2.2 serviceBackgroundToCloudEvent.reverse
     (List.reverse_perm serviceBackgroundToCloudEvent) "google.pubsub.topic.publish",
   by decide,
   service_inference_deterministic.2.1 "google.pubsub.topic.publish"
     "google.pubsub" "google.pubsub" (by decide) (by decide) (by decide) (by decide)⟩

end FFGo
